import Mathlib

/-!
Widevine PSSH box parser

A shallow embedding of `PsshBox` (`src/pssh.go`, and its printing twin in
`src/psshbox.go`) together with the properties of the parser.

Conventions of the embedding:

* a Go `byte` is a `Fin 256`, a `[]byte` is a `List Byte`;
* a Go `int` is a two's complement integer 32 or 64 bits wide, depending on
  the target the package is built for (the sources carry no build
  constraint): `Pssh.PsshBoxN bits` is the parser for a target whose `int`
  is `bits` wide, every `+`, `-` and `*` on `int` and every conversion
  `int(x)` being followed by `wrapIntN bits`; `Pssh.PsshBox` and
  `Psshbox.PsshBox` are the parsers for a 64-bit target, with `wrapInt`, and
  `Pssh.PsshBoxN_64` shows that `Pssh.PsshBoxN 64` is `Pssh.PsshBox`;
* a run-time panic (slice bounds out of range, index out of range) is the
  value `none`; bounds are checked against the length of the slice, which
  is at most its capacity, so a run that does not panic here does not panic
  in Go either;
* `len` is the length of the list as it stands: a Go slice has fewer than
  `2 ^ 63` elements, and no statement below needs that bound;
* the `error` built by `fmt.Errorf` is a `PsshError`: one constructor per
  call site, carrying the arguments of the format string.
-/

namespace Widevine

/-- A Go `byte`. -/
abbrev Byte := Fin 256

/-- Two's complement wrap-around of a Go `int` (64 bit). -/
def wrapInt (x : Int) : Int := (x + 2 ^ 63) % 2 ^ 64 - 2 ^ 63

/-- Go `len(s)`, an `int`. -/
def len (s : List Byte) : Int := (s.length : Int)

/-- The bytes of `s` at offsets `[off, off + n)`, cut at the end of `s`. -/
def bytesAt (s : List Byte) (off n : Nat) : List Byte := (s.drop off).take n

/-- Go slice expression `s[lo:hi]`; `none` is the run-time panic. -/
def slice (s : List Byte) (lo hi : Int) : Option (List Byte) :=
  if 0 ≤ lo ∧ lo ≤ hi ∧ hi ≤ len s then
    some (bytesAt s lo.toNat (hi - lo).toNat)
  else
    none

/-- Go index expression `s[i]`; `none` is the run-time panic. -/
def index (s : List Byte) (i : Int) : Option Byte :=
  if 0 ≤ i ∧ i < len s then s[i.toNat]? else none

/-- The value of four bytes read as a big-endian unsigned 32-bit integer. -/
def be32 (b0 b1 b2 b3 : Byte) : Nat :=
  b0.val * 2 ^ 24 + b1.val * 2 ^ 16 + b2.val * 2 ^ 8 + b3.val

/-- Go `binary.BigEndian.Uint32(b)`: reads `b[0..4)`, panics on a shorter slice.
The library computes `b[3] | b[2]<<8 | b[1]<<16 | b[0]<<24` on `uint32`; the
four fields do not overlap, so the result is the sum `be32`. -/
def Uint32 (b : List Byte) : Option Nat :=
  match b with
  | b0 :: b1 :: b2 :: b3 :: _ => some (be32 b0 b1 b2 b3)
  | _ => none

/-- The string literal `"pssh"` as bytes. -/
def psshTag : List Byte := [0x70, 0x73, 0x73, 0x68]

/-- The local `widevineSystemID` of `PsshBox`. -/
def widevineSystemID : List Byte :=
  [0xED, 0xEF, 0x8B, 0xA9, 0x79, 0xD6, 0x4A, 0xCE,
   0xA3, 0xC8, 0x27, 0xDC, 0xD5, 0x1D, 0x21, 0xED]

/-- The errors `PsshBox` builds with `fmt.Errorf`, one constructor per call
site, in source order, each with the arguments of its format string. -/
inductive PsshError where
  /-- Line 11: `len(pssh) < 32`; argument `len(pssh)`. -/
  | tooShort (got : Int)
  /-- Line 14: the box type is not `"pssh"`; argument `pssh[4:8]`. -/
  | wrongBoxType (found : List Byte)
  /-- Line 18: the version is neither 0 nor 1; argument `version`. -/
  | unsupportedVersion (version : Byte)
  /-- Line 23: the system ID is not Widevine's; argument `systemID`. -/
  | wrongSystemID (found : List Byte)
  /-- Line 28: version 1, `len(pssh) < 32` again. -/
  | keyCountUnreadable
  /-- Line 33: version 1, `len(pssh) < dataSizeOffset+4`. -/
  | truncatedAfterKeyIDs
  /-- Line 37: `len(pssh) < dataSizeOffset+4`; argument `dataSizeOffset`. -/
  | truncatedLengthField (offset : Int)
  /-- Line 41: the payload is cut short; arguments `dataSize` and
  `len(pssh)-(dataSizeOffset+4)`. -/
  | truncatedPayload (expected : Nat) (got : Int)
  deriving DecidableEq, Repr

/-- The format string of the `fmt.Errorf` call that builds the error. -/
def PsshError.format : PsshError → String
  | .tooShort _ => "pssh data too short: expected at least 32 bytes, got %d"
  | .wrongBoxType _ => "not a pssh box: found type \x27%s\x27"
  | .unsupportedVersion _ =>
      "unsupported pssh version %d: only versions 0 and 1 are supported"
  | .wrongSystemID _ => "not a widevine systemID: found %X"
  | .keyCountUnreadable => "pssh data too short to read key count for version 1"
  | .truncatedAfterKeyIDs => "pssh data too short after key IDs for version 1"
  | .truncatedLengthField _ =>
      "pssh data truncated: cannot read dataSize at offset %d"
  | .truncatedPayload _ _ =>
      "pssh data truncated: payload size mismatch. Expected %d bytes, got %d"

/-- What a call of `PsshBox` returns: `(payload, nil)` or `(nil, err)`. -/
inductive Result where
  | ok (payload : List Byte)
  | error (err : PsshError)
  deriving DecidableEq, Repr

namespace Pssh

/-- Lines 36-45 of `src/pssh.go`: the part of `PsshBox` that follows the
version-1 block, as a function of the local `dataSizeOffset`. -/
def PsshBox.readPayload (pssh : List Byte) (dataSizeOffset : Int) : Option Result :=
  if len pssh < wrapInt (dataSizeOffset + 4) then
    pure (.error (.truncatedLengthField dataSizeOffset))
  else do
    let field ← slice pssh dataSizeOffset (wrapInt (dataSizeOffset + 4))
    let dataSize ← Uint32 field
    if len pssh < wrapInt (wrapInt (dataSizeOffset + 4) + (dataSize : Int)) then
      pure (.error (.truncatedPayload dataSize
        (wrapInt (len pssh - wrapInt (dataSizeOffset + 4)))))
    else do
      let payload ← slice pssh (wrapInt (dataSizeOffset + 4))
        (wrapInt (wrapInt (dataSizeOffset + 4) + (dataSize : Int)))
      pure (.ok payload)

/-- The function `PsshBox` of `src/pssh.go`; `none` is a run-time panic. The local
`dataSizeOffset` is 28 unless the version-1 block reassigns it. -/
def PsshBox (pssh : List Byte) : Option Result :=
  if len pssh < 32 then
    pure (.error (.tooShort (len pssh)))
  else do
    let boxType ← slice pssh 4 8
    if boxType ≠ psshTag then
      pure (.error (.wrongBoxType boxType))
    else do
      let version ← index pssh 8
      if version ≠ 0 ∧ version ≠ 1 then
        pure (.error (.unsupportedVersion version))
      else do
        let systemID ← slice pssh 12 28
        if systemID ≠ widevineSystemID then
          pure (.error (.wrongSystemID systemID))
        else if version = 1 then
          if len pssh < 32 then
            pure (.error .keyCountUnreadable)
          else do
            let keyCount ← Uint32 (← slice pssh 28 32)
            let dataSizeOffset := wrapInt (32 + wrapInt ((keyCount : Int) * 16))
            if len pssh < wrapInt (dataSizeOffset + 4) then
              pure (.error .truncatedAfterKeyIDs)
            else
              PsshBox.readPayload pssh dataSizeOffset
        else
          PsshBox.readPayload pssh 28

end Pssh

namespace Psshbox

/-- Lines 59-75 of `src/psshbox.go`: the part of `PsshBox` that follows the
version-1 block, as a function of the local `dataSizeOffset`. Nothing in it
writes to standard output. -/
def PsshBox.readPayload (pssh : List Byte) (dataSizeOffset : Int) : Option Result :=
  if len pssh < wrapInt (dataSizeOffset + 4) then
    pure (.error (.truncatedLengthField dataSizeOffset))
  else do
    let field ← slice pssh dataSizeOffset (wrapInt (dataSizeOffset + 4))
    let dataSize ← Uint32 field
    if len pssh < wrapInt (wrapInt (dataSizeOffset + 4) + (dataSize : Int)) then
      pure (.error (.truncatedPayload dataSize
        (wrapInt (len pssh - wrapInt (dataSizeOffset + 4)))))
    else do
      let payload ← slice pssh (wrapInt (dataSizeOffset + 4))
        (wrapInt (wrapInt (dataSizeOffset + 4) + (dataSize : Int)))
      pure (.ok payload)

/-- The function `PsshBox` of `src/psshbox.go`, with standard output as
explicit state: the list of the strings written so far goes in, the list
after the call comes out next to the result (`none` is a run-time panic).
Line 23,
`fmt.Printf("PSSH Box Version: %d\n", version)`, appends one string. -/
def PsshBox (pssh : List Byte) (stdout : List String) : Option Result × List String :=
  if len pssh < 32 then
    (some (.error (.tooShort (len pssh))), stdout)
  else
    match slice pssh 4 8 with
    | none => (none, stdout)
    | some boxType =>
      if boxType ≠ psshTag then
        (some (.error (.wrongBoxType boxType)), stdout)
      else
        match index pssh 8 with
        | none => (none, stdout)
        | some version =>
          let stdout := stdout ++ ["PSSH Box Version: " ++ toString version.val ++ "\n"]
          if version ≠ 0 ∧ version ≠ 1 then
            (some (.error (.unsupportedVersion version)), stdout)
          else
            match slice pssh 12 28 with
            | none => (none, stdout)
            | some systemID =>
              if systemID ≠ widevineSystemID then
                (some (.error (.wrongSystemID systemID)), stdout)
              else if version = 1 then
                if len pssh < 32 then
                  (some (.error .keyCountUnreadable), stdout)
                else
                  match (slice pssh 28 32).bind Uint32 with
                  | none => (none, stdout)
                  | some keyCount =>
                    let dataSizeOffset := wrapInt (32 + wrapInt ((keyCount : Int) * 16))
                    if len pssh < wrapInt (dataSizeOffset + 4) then
                      (some (.error .truncatedAfterKeyIDs), stdout)
                    else
                      (PsshBox.readPayload pssh dataSizeOffset, stdout)
              else
                (PsshBox.readPayload pssh 28, stdout)

end Psshbox

/-! ## The parser of `src/pssh.go` for either width of `int` -/

/-- Two's complement wrap-around of a Go `int` that is `bits` wide (32 on
386 and arm targets, 64 on amd64 and arm64). -/
def wrapIntN (bits : Nat) (x : Int) : Int :=
  (x + 2 ^ (bits - 1)) % 2 ^ bits - 2 ^ (bits - 1)

namespace Pssh

/-- Lines 36-45 of `src/pssh.go` for an `int` of `bits` bits, as a function
of the local `dataSizeOffset`; `int(dataSize)` converts a `uint32`. -/
def PsshBoxN.readPayload (bits : Nat) (pssh : List Byte) (dataSizeOffset : Int) :
    Option Result :=
  if len pssh < wrapIntN bits (dataSizeOffset + 4) then
    pure (.error (.truncatedLengthField dataSizeOffset))
  else do
    let field ← slice pssh dataSizeOffset (wrapIntN bits (dataSizeOffset + 4))
    let dataSize ← Uint32 field
    if len pssh <
        wrapIntN bits (wrapIntN bits (dataSizeOffset + 4) + wrapIntN bits (dataSize : Int)) then
      pure (.error (.truncatedPayload dataSize
        (wrapIntN bits (len pssh - wrapIntN bits (dataSizeOffset + 4)))))
    else do
      let payload ← slice pssh (wrapIntN bits (dataSizeOffset + 4))
        (wrapIntN bits (wrapIntN bits (dataSizeOffset + 4) + wrapIntN bits (dataSize : Int)))
      pure (.ok payload)

/-- The function `PsshBox` of `src/pssh.go` for an `int` of `bits` bits;
`none` is a run-time panic. `int(keyCount)` converts a `uint32`, and the
product and the sum of line 31 wrap. -/
def PsshBoxN (bits : Nat) (pssh : List Byte) : Option Result :=
  if len pssh < 32 then
    pure (.error (.tooShort (len pssh)))
  else do
    let boxType ← slice pssh 4 8
    if boxType ≠ psshTag then
      pure (.error (.wrongBoxType boxType))
    else do
      let version ← index pssh 8
      if version ≠ 0 ∧ version ≠ 1 then
        pure (.error (.unsupportedVersion version))
      else do
        let systemID ← slice pssh 12 28
        if systemID ≠ widevineSystemID then
          pure (.error (.wrongSystemID systemID))
        else if version = 1 then
          if len pssh < 32 then
            pure (.error .keyCountUnreadable)
          else do
            let keyCount ← Uint32 (← slice pssh 28 32)
            let dataSizeOffset :=
              wrapIntN bits (32 + wrapIntN bits (wrapIntN bits (keyCount : Int) * 16))
            if len pssh < wrapIntN bits (dataSizeOffset + 4) then
              pure (.error .truncatedAfterKeyIDs)
            else
              PsshBoxN.readPayload bits pssh dataSizeOffset
        else
          PsshBoxN.readPayload bits pssh 28

end Pssh

/-! ## Vocabulary of the statements -/

/-- The big-endian unsigned 32-bit integer stored at offsets `[off, off + 4)`
of `s` (a byte past the end of `s` counts as 0). -/
def u32At (s : List Byte) (off : Nat) : Nat :=
  be32 (s.getD off 0) (s.getD (off + 1) 0) (s.getD (off + 2) 0) (s.getD (off + 3) 0)

/-- The value of the local `dataSizeOffset` when control reaches line 36 of
`src/pssh.go`: 28, or `32 + keyCount*16` for a version-1 box, `keyCount` being
the big-endian integer at `[28, 32)`. -/
def dataSizeOffsetOf (b : List Byte) : Nat :=
  if b.getD 8 0 = 1 then 32 + 16 * u32At b 28 else 28

/-- Follows the spec's words (section 4.1, `parse_box`): the checks in the
order the spec lists them, on natural-number offsets, without wrap-around
and without panics. -/
def parse_box (buffer : List Byte) : Result :=
  if buffer.length < 32 then
    .error (.tooShort buffer.length)
  else if bytesAt buffer 4 4 ≠ psshTag then
    .error (.wrongBoxType (bytesAt buffer 4 4))
  else if buffer.getD 8 0 ≠ 0 ∧ buffer.getD 8 0 ≠ 1 then
    .error (.unsupportedVersion (buffer.getD 8 0))
  else if bytesAt buffer 12 16 ≠ widevineSystemID then
    .error (.wrongSystemID (bytesAt buffer 12 16))
  else if buffer.getD 8 0 = 1 ∧ buffer.length < 32 + 16 * u32At buffer 28 + 4 then
    .error .truncatedAfterKeyIDs
  else if buffer.length < dataSizeOffsetOf buffer + 4 then
    .error (.truncatedLengthField (dataSizeOffsetOf buffer))
  else if buffer.length <
      dataSizeOffsetOf buffer + 4 + u32At buffer (dataSizeOffsetOf buffer) then
    .error (.truncatedPayload (u32At buffer (dataSizeOffsetOf buffer))
      ((buffer.length : Int) - ((dataSizeOffsetOf buffer : Int) + 4)))
  else
    .ok (bytesAt buffer (dataSizeOffsetOf buffer + 4) (u32At buffer (dataSizeOffsetOf buffer)))

/-! ## Concrete boxes -/

/-- A 44-byte version-0 box: size 44, type `pssh`, version 0, flags 0, the
Widevine system ID, payload length 12, and 12 payload bytes. -/
def box44 : List Byte :=
  [0x00, 0x00, 0x00, 0x2C, 0x70, 0x73, 0x73, 0x68, 0x00, 0x00, 0x00, 0x00,
   0xED, 0xEF, 0x8B, 0xA9, 0x79, 0xD6, 0x4A, 0xCE,
   0xA3, 0xC8, 0x27, 0xDC, 0xD5, 0x1D, 0x21, 0xED,
   0x00, 0x00, 0x00, 0x0C,
   0x08, 0x01, 0x12, 0x04, 0xDE, 0xAD, 0xBE, 0xEF, 0x22, 0x02, 0x68, 0x69]

/-- The 12 payload bytes of `box44` and of `box64`. -/
def payload12 : List Byte :=
  [0x08, 0x01, 0x12, 0x04, 0xDE, 0xAD, 0xBE, 0xEF, 0x22, 0x02, 0x68, 0x69]

/-- A 64-byte version-1 box: key count 1, one 16-byte key ID, payload length
12, and the 12 payload bytes of `box44`. -/
def box64 : List Byte :=
  [0x00, 0x00, 0x00, 0x40, 0x70, 0x73, 0x73, 0x68, 0x01, 0x00, 0x00, 0x00,
   0xED, 0xEF, 0x8B, 0xA9, 0x79, 0xD6, 0x4A, 0xCE,
   0xA3, 0xC8, 0x27, 0xDC, 0xD5, 0x1D, 0x21, 0xED,
   0x00, 0x00, 0x00, 0x01,
   0x10, 0x11, 0x12, 0x13, 0x14, 0x15, 0x16, 0x17,
   0x18, 0x19, 0x1A, 0x1B, 0x1C, 0x1D, 0x1E, 0x1F,
   0x00, 0x00, 0x00, 0x0C,
   0x08, 0x01, 0x12, 0x04, 0xDE, 0xAD, 0xBE, 0xEF, 0x22, 0x02, 0x68, 0x69]

/-- A 44-byte version-1 box whose key count is `0xFFFFFFFF`: the key IDs it
announces do not fit in the buffer. -/
def box44Keys : List Byte :=
  [0x00, 0x00, 0x00, 0x2C, 0x70, 0x73, 0x73, 0x68, 0x01, 0x00, 0x00, 0x00,
   0xED, 0xEF, 0x8B, 0xA9, 0x79, 0xD6, 0x4A, 0xCE,
   0xA3, 0xC8, 0x27, 0xDC, 0xD5, 0x1D, 0x21, 0xED,
   0xFF, 0xFF, 0xFF, 0xFF,
   0x08, 0x01, 0x12, 0x04, 0xDE, 0xAD, 0xBE, 0xEF, 0x22, 0x02, 0x68, 0x69]

/-- The box `box44` with its payload length raised from 12 to 13: one byte
more than the buffer holds. -/
def box44Long : List Byte := box44.set 31 0x0D

/-- A 32-byte buffer of `0xFF`: the box type, the version and the system ID
are all invalid. -/
def junk32 : List Byte := List.replicate 32 0xFF

/-- The box `box44` with its payload length set to `0xFFFFFFFF`; as an `int`
of 32 bits that length is -1. -/
def box44Huge : List Byte :=
  [0x00, 0x00, 0x00, 0x2C, 0x70, 0x73, 0x73, 0x68, 0x00, 0x00, 0x00, 0x00,
   0xED, 0xEF, 0x8B, 0xA9, 0x79, 0xD6, 0x4A, 0xCE,
   0xA3, 0xC8, 0x27, 0xDC, 0xD5, 0x1D, 0x21, 0xED,
   0xFF, 0xFF, 0xFF, 0xFF,
   0x08, 0x01, 0x12, 0x04, 0xDE, 0xAD, 0xBE, 0xEF, 0x22, 0x02, 0x68, 0x69]

/-- A 44-byte version-1 box whose key count is `0x10000000`: 16 times that is
`2 ^ 32`, which is 0 as an `int` of 32 bits. The bytes at `[32, 40)` read as a
payload length 4 and the payload `AA BB CC DD`. -/
def box44Wrap : List Byte :=
  [0x00, 0x00, 0x00, 0x2C, 0x70, 0x73, 0x73, 0x68, 0x01, 0x00, 0x00, 0x00,
   0xED, 0xEF, 0x8B, 0xA9, 0x79, 0xD6, 0x4A, 0xCE,
   0xA3, 0xC8, 0x27, 0xDC, 0xD5, 0x1D, 0x21, 0xED,
   0x10, 0x00, 0x00, 0x00,
   0x00, 0x00, 0x00, 0x04, 0xAA, 0xBB, 0xCC, 0xDD, 0x00, 0x00, 0x00, 0x00]

/-- A 44-byte version-1 box whose key count is `0xFFFFFFFD`: as an `int` of
32 bits it is -3, and `32 + (-3)*16` is -16. -/
def box44Neg : List Byte :=
  [0x00, 0x00, 0x00, 0x2C, 0x70, 0x73, 0x73, 0x68, 0x01, 0x00, 0x00, 0x00,
   0xED, 0xEF, 0x8B, 0xA9, 0x79, 0xD6, 0x4A, 0xCE,
   0xA3, 0xC8, 0x27, 0xDC, 0xD5, 0x1D, 0x21, 0xED,
   0xFF, 0xFF, 0xFF, 0xFD,
   0x08, 0x01, 0x12, 0x04, 0xDE, 0xAD, 0xBE, 0xEF, 0x22, 0x02, 0x68, 0x69]

/-! ## The license session (`src/sessions.go`) -/

/-- The struct `Key` of `src/sessions.go`. -/
structure Key where
  ID : List Byte
  IV : List Byte
  Key : List Byte
  deriving DecidableEq, Repr

/-- The types and methods `src/sessions.go` uses and does not declare, taken
as parameters: `Cdm` with `New`, `RequestBody` and `Block`, `ResponseBody`
with `Unmarshal` and `Container`, the key container with `Id`, `iv` and `Key`,
`cipher.Block` and `error`. A method with a pointer receiver returns the
receiver after the call next to its results; a `nil` error and a `nil`
`cipher.Block` are `none`; the iterator `Container()` is the list of the
entries it yields, in order. -/
structure Collaborators where
  /-- The struct `Cdm`. -/
  Cdm : Type
  /-- The struct `ResponseBody`. -/
  ResponseBody : Type
  /-- The element type of `ResponseBody.Container()`. -/
  KeyContainer : Type
  /-- The non-nil values of `cipher.Block`. -/
  CipherBlock : Type
  /-- The non-nil values of `error`. -/
  Error : Type
  /-- The zero value `Cdm{}`. -/
  zeroCdm : Cdm
  /-- The zero value of `ResponseBody` (`var res ResponseBody`). -/
  zeroResponseBody : ResponseBody
  /-- The method `c.New(privateKey, clientID, pssh)`. -/
  New : Cdm → List Byte → List Byte → List Byte → Cdm × Option Error
  /-- The method `c.RequestBody()`. -/
  RequestBody : Cdm → Cdm × List Byte × Option Error
  /-- The method `res.Unmarshal(licenseResponse)`. -/
  Unmarshal : ResponseBody → List Byte → ResponseBody × Option Error
  /-- The method `c.Block(res)`. -/
  Block : Cdm → ResponseBody → Cdm × Option CipherBlock × Option Error
  /-- The entries `res.Container()` yields. -/
  Container : ResponseBody → List KeyContainer
  /-- The method `k.Id()`. -/
  Id : KeyContainer → List Byte
  /-- The method `k.iv()`. -/
  iv : KeyContainer → List Byte
  /-- The method `k.Key(block)`. -/
  Key : KeyContainer → Option CipherBlock → List Byte

/-- The struct `Session`; a `nil` slice `keys` is the empty list. -/
structure Session (C : Collaborators) where
  cdm : C.Cdm
  block : Option C.CipherBlock
  keys : List Key

/-- The zero value of `Session` (`var s Session`). -/
def Session.zero (C : Collaborators) : Session C :=
  { cdm := C.zeroCdm, block := none, keys := [] }

/-- The method `Close` (lines 60-64): three assignments to the receiver. -/
def Session.Close {C : Collaborators} (s : Session C) : Session C :=
  let s := { s with cdm := C.zeroCdm }
  let s := { s with block := none }
  { s with keys := [] }

/-- The method `Keys` (lines 56-58): the value it returns. -/
def Session.Keys {C : Collaborators} (s : Session C) : List Key := s.keys

/-- The method `RequestBody` (lines 52-54): the receiver after the call and
the two values returned. -/
def Session.RequestBody {C : Collaborators} (s : Session C) :
    Session C × List Byte × Option C.Error :=
  let r := C.RequestBody s.cdm
  ({ s with cdm := r.1 }, r.2)

/-- The body of the loop of `Open` (lines 38-47) for one entry `k`. -/
def Open.addKey (C : Collaborators) (block : Option C.CipherBlock) (s : Session C)
    (k : C.KeyContainer) : Session C :=
  let id := C.Id k
  if id.length = 0 then
    s
  else
    { s with keys := s.keys ++ [{ ID := id, IV := C.iv k, Key := C.Key k block }] }

/-- The function `Open` (lines 19-50). The result is the pair Go returns:
`(nil, err)` is `(none, some err)` and `(&s, nil)` is `(some s, none)`. -/
def Open (C : Collaborators) (privateKey clientID pssh licenseResponse : List Byte) :
    Option (Session C) × Option C.Error :=
  let s := Session.zero C
  let r := C.New s.cdm privateKey clientID pssh
  let s := { s with cdm := r.1 }
  match r.2 with
  | some err => (none, some err)
  | none =>
    let u := C.Unmarshal C.zeroResponseBody licenseResponse
    let res := u.1
    match u.2 with
    | some err =>
      let _closed := s.Close
      (none, some err)
    | none =>
      let bl := C.Block s.cdm res
      let s := { s with cdm := bl.1 }
      match bl.2.2 with
      | some err =>
        let _closed := s.Close
        (none, some err)
      | none =>
        let block := bl.2.1
        let s := { s with block := block }
        let s := (C.Container res).foldl (Open.addKey C block) s
        (some s, none)

/-- The calls a caller can make on a `*Session`. -/
inductive Call where
  | Keys
  | RequestBody
  | Close
  deriving DecidableEq, Repr

/-- The session after one call. -/
def Session.call {C : Collaborators} (s : Session C) : Call → Session C
  | .Keys => s
  | .RequestBody => s.RequestBody.1
  | .Close => s.Close

/-- The session after a sequence of calls, first call first. -/
def Session.run {C : Collaborators} (s : Session C) (calls : List Call) : Session C :=
  calls.foldl Session.call s

/-- A small stand-in for the collaborators, to run `Open` on concrete inputs:
the protocol state keeps the PSSH payload, a response is the list of its
bytes, each byte is one key container, a zero byte has an empty ID, and the
cipher adds its key byte. The theorems hold for every `Collaborators`. -/
@[reducible]
def toy : Collaborators where
  Cdm := List Byte
  ResponseBody := List Byte
  KeyContainer := Byte
  CipherBlock := Byte
  Error := String
  zeroCdm := []
  zeroResponseBody := []
  New := fun c privateKey _ pssh =>
    if privateKey.length = 0 then (c, some "no private key") else (pssh, none)
  RequestBody := fun c => (c, c, none)
  Unmarshal := fun r data =>
    if data.length = 0 then (r, some "empty response") else (data, none)
  Block := fun c res =>
    if res.length > 4 then (c, none, some "no session key") else (c, some 0x2A, none)
  Container := fun res => res
  Id := fun k => if k = 0 then [] else [k]
  iv := fun k => [k, k]
  Key := fun k block =>
    match block with
    | some x => [k + x]
    | none => [k]

/-- The session `Open` returns for `toy` on the private key `[1]`, the PSSH
payload `[9]` and the response `[0, 7]`: the entry 0 has an empty ID and is
dropped, the entry 7 is kept. -/
def toySession : Session toy :=
  { cdm := [(0x09 : Byte)], block := some (0x2A : Byte),
    keys := [{ ID := [0x07], IV := [0x07, 0x07], Key := [0x31] }] }

/-- The value `s.cdm.New(privateKey, clientID, pssh)` of line 21 produces. -/
def Open.initialised (C : Collaborators) (privateKey clientID pssh : List Byte) :
    C.Cdm × Option C.Error :=
  C.New C.zeroCdm privateKey clientID pssh

/-- The value `res.Unmarshal(licenseResponse)` of line 25 produces. -/
def Open.decoded (C : Collaborators) (licenseResponse : List Byte) :
    C.ResponseBody × Option C.Error :=
  C.Unmarshal C.zeroResponseBody licenseResponse

/-- The value `s.cdm.Block(res)` of line 29 produces. -/
def Open.derived (C : Collaborators) (privateKey clientID pssh licenseResponse : List Byte) :
    C.Cdm × Option C.CipherBlock × Option C.Error :=
  C.Block (Open.initialised C privateKey clientID pssh).1 (Open.decoded C licenseResponse).1

/-! ## Basic facts about the primitives -/

theorem wrapInt_eq_self {x : Int} (hlo : -2 ^ 63 ≤ x) (hhi : x < 2 ^ 63) : wrapInt x = x := by
  unfold wrapInt
  rw [Int.emod_eq_of_lt (by omega) (by omega)]
  omega

theorem length_bytesAt (s : List Byte) (off n : Nat) (h : off + n ≤ s.length) :
    (bytesAt s off n).length = n := by
  simp [bytesAt]
  omega

theorem slice_eq_bytesAt (s : List Byte) (a b : Nat) (hab : a ≤ b) (hb : b ≤ s.length) :
    slice s (a : Int) (b : Int) = some (bytesAt s a (b - a)) := by
  unfold slice len
  rw [if_pos ⟨by omega, by omega, by omega⟩]
  congr 2
  omega

theorem index_eq_getD (s : List Byte) (i : Nat) (hi : i < s.length) :
    index s (i : Int) = some (s.getD i 0) := by
  unfold index len
  rw [if_pos ⟨by omega, by omega⟩]
  simp [List.getD_eq_getElem?_getD, List.getElem?_eq_getElem hi]

theorem be32_lt (b0 b1 b2 b3 : Byte) : be32 b0 b1 b2 b3 < 2 ^ 32 := by
  unfold be32
  have h0 := b0.isLt
  have h1 := b1.isLt
  have h2 := b2.isLt
  have h3 := b3.isLt
  omega

theorem u32At_lt (s : List Byte) (off : Nat) : u32At s off < 2 ^ 32 :=
  be32_lt _ _ _ _

theorem Uint32_bytesAt (s : List Byte) (off : Nat) (h : off + 4 ≤ s.length) :
    Uint32 (bytesAt s off 4) = some (u32At s off) := by
  have e : bytesAt s off 4 =
      [s.getD off 0, s.getD (off + 1) 0, s.getD (off + 2) 0, s.getD (off + 3) 0] := by
    apply List.ext_getElem
    · simp [bytesAt]; omega
    · intro i h1 h2
      simp at h2
      simp only [bytesAt, List.getElem_take, List.getElem_drop]
      have a0 : off < s.length := by omega
      have a1 : off + 1 < s.length := by omega
      have a2 : off + 2 < s.length := by omega
      have a3 : off + 3 < s.length := by omega
      rcases (by omega : i = 0 ∨ i = 1 ∨ i = 2 ∨ i = 3) with rfl | rfl | rfl | rfl <;>
        simp [List.getD_eq_getElem?_getD, List.getElem?_eq_getElem a0,
          List.getElem?_eq_getElem a1, List.getElem?_eq_getElem a2,
          List.getElem?_eq_getElem a3]
  rw [e]
  rfl

theorem Pssh.readPayload_eq (s : List Byte) (off : Nat) (hoff : off < 2 ^ 40) :
    Pssh.PsshBox.readPayload s (off : Int) = some (
      if s.length < off + 4 then
        .error (.truncatedLengthField (off : Int))
      else if s.length < off + 4 + u32At s off then
        .error (.truncatedPayload (u32At s off) ((s.length : Int) - ((off : Int) + 4)))
      else
        .ok (bytesAt s (off + 4) (u32At s off))) := by
  have hd := u32At_lt s off
  have w1 : wrapInt ((off : Int) + 4) = ((off + 4 : Nat) : Int) := by
    rw [wrapInt_eq_self] <;> push_cast <;> omega
  have w2 : wrapInt (((off + 4 : Nat) : Int) + (u32At s off : Int))
      = ((off + 4 + u32At s off : Nat) : Int) := by
    rw [wrapInt_eq_self] <;> push_cast <;> omega
  unfold Pssh.PsshBox.readPayload
  rw [w1]
  by_cases h1 : s.length < off + 4
  · rw [if_pos (by unfold len; omega), if_pos h1]
    rfl
  · rw [if_neg (by unfold len; omega), if_neg h1,
      slice_eq_bytesAt s off (off + 4) (by omega) (by omega),
      (by omega : off + 4 - off = 4)]
    have hu := Uint32_bytesAt s off (by omega)
    show (Uint32 (bytesAt s off 4)).bind _ = _
    rw [hu, Option.some_bind, w2]
    by_cases h2 : s.length < off + 4 + u32At s off
    · rw [if_pos (by unfold len; omega), if_pos h2]
      have w3 : wrapInt (len s - ((off + 4 : Nat) : Int)) = (s.length : Int) - ((off : Int) + 4) := by
        unfold len
        rw [wrapInt_eq_self] <;> push_cast <;> omega
      rw [w3]
      rfl
    · rw [if_neg (by unfold len; omega), if_neg h2,
        slice_eq_bytesAt s (off + 4) (off + 4 + u32At s off) (by omega) (by omega),
        (by omega : off + 4 + u32At s off - (off + 4) = u32At s off)]
      rfl

theorem some_bind_eq {α β : Type} (a : α) (f : α → Option β) : (some a >>= f) = f a := rfl

theorem Pssh.PsshBox_eq_parse_box (b : List Byte) : Pssh.PsshBox b = some (parse_box b) := by
  unfold Pssh.PsshBox parse_box
  by_cases h0 : b.length < 32
  · rw [if_pos (by unfold len; omega), if_pos h0]
    rfl
  · have s48 : slice b 4 8 = some (bytesAt b 4 4) :=
      slice_eq_bytesAt b 4 8 (by omega) (by omega)
    have i8 : index b 8 = some (b.getD 8 0) := index_eq_getD b 8 (by omega)
    have s1228 : slice b 12 28 = some (bytesAt b 12 16) :=
      slice_eq_bytesAt b 12 28 (by omega) (by omega)
    have s2832 : slice b 28 32 = some (bytesAt b 28 4) :=
      slice_eq_bytesAt b 28 32 (by omega) (by omega)
    have hk := u32At_lt b 28
    rw [if_neg (by unfold len; omega), if_neg h0, s48, some_bind_eq]
    by_cases h1 : bytesAt b 4 4 ≠ psshTag
    · rw [if_pos h1, if_pos h1]
      rfl
    · rw [if_neg h1, if_neg h1, i8, some_bind_eq]
      by_cases h2 : b.getD 8 0 ≠ 0 ∧ b.getD 8 0 ≠ 1
      · rw [if_pos h2, if_pos h2]
        rfl
      · rw [if_neg h2, if_neg h2, s1228, some_bind_eq]
        by_cases h3 : bytesAt b 12 16 ≠ widevineSystemID
        · rw [if_pos h3, if_pos h3]
          rfl
        · rw [if_neg h3, if_neg h3]
          by_cases h4 : b.getD 8 0 = 1
          · rw [if_pos h4, if_neg (by unfold len; omega), s2832, some_bind_eq,
              Uint32_bytesAt b 28 (by omega), some_bind_eq]
            have w0 : wrapInt (32 + wrapInt ((u32At b 28 : Int) * 16))
                = ((32 + 16 * u32At b 28 : Nat) : Int) := by
              rw [wrapInt_eq_self (x := (u32At b 28 : Int) * 16) (by omega) (by omega),
                wrapInt_eq_self (by omega) (by omega)]
              push_cast
              ring
            have w1 : wrapInt (((32 + 16 * u32At b 28 : Nat) : Int) + 4)
                = ((32 + 16 * u32At b 28 + 4 : Nat) : Int) := by
              rw [wrapInt_eq_self] <;> push_cast <;> omega
            have hoff : dataSizeOffsetOf b = 32 + 16 * u32At b 28 := by
              unfold dataSizeOffsetOf
              rw [if_pos h4]
            rw [w0]
            show (if len b < wrapInt (((32 + 16 * u32At b 28 : Nat) : Int) + 4) then _ else _) = _
            rw [w1, hoff]
            by_cases h5 : b.length < 32 + 16 * u32At b 28 + 4
            · rw [if_pos (by unfold len; omega), if_pos ⟨h4, h5⟩]
              rfl
            · rw [if_neg (by unfold len; omega), if_neg (fun h => h5 h.2),
                Pssh.readPayload_eq b (32 + 16 * u32At b 28) (by omega)]
          · have hoff : dataSizeOffsetOf b = 28 := by
              unfold dataSizeOffsetOf
              rw [if_neg h4]
            rw [if_neg h4, if_neg (fun h => h4 h.1), hoff]
            exact Pssh.readPayload_eq b 28 (by omega)

theorem getD_of_getElem? {b : List Byte} {i : Nat} {v : Byte} (h : b[i]? = some v) :
    b.getD i 0 = v := by
  rw [List.getD_eq_getElem?_getD, h]
  rfl

/-- Once the four header checks pass, `parse_box` is decided by the key-ID
check and the two payload checks. -/
theorem parse_box_of_header (b : List Byte) (hlen : 32 ≤ b.length)
    (htype : bytesAt b 4 4 = psshTag) (hver : b.getD 8 0 = 0 ∨ b.getD 8 0 = 1)
    (hsys : bytesAt b 12 16 = widevineSystemID) :
    parse_box b =
      if b.getD 8 0 = 1 ∧ b.length < 32 + 16 * u32At b 28 + 4 then
        .error .truncatedAfterKeyIDs
      else if b.length < dataSizeOffsetOf b + 4 then
        .error (.truncatedLengthField (dataSizeOffsetOf b))
      else if b.length < dataSizeOffsetOf b + 4 + u32At b (dataSizeOffsetOf b) then
        .error (.truncatedPayload (u32At b (dataSizeOffsetOf b))
          ((b.length : Int) - ((dataSizeOffsetOf b : Int) + 4)))
      else
        .ok (bytesAt b (dataSizeOffsetOf b + 4) (u32At b (dataSizeOffsetOf b))) := by
  unfold parse_box
  rw [if_neg (by omega), if_neg (fun h => h htype),
    if_neg (fun h => hver.elim h.1 h.2), if_neg (fun h => h hsys)]

/-! ## The parser of `src/pssh.go` -/

/-- C1. Version-0 success: a buffer of at least 32 bytes with type `pssh`,
version 0 and the Widevine system ID, whose declared payload length
`L = u32At b 28` fits (`32 + L ≤ len b`), is parsed successfully, and the
result is exactly the `L` bytes at offsets `[32, 32 + L)`. -/
theorem Pssh.PsshBox_version0_payload (b : List Byte)
    (hlen : 32 ≤ b.length) (htype : bytesAt b 4 4 = psshTag) (hver : b[8]? = some 0)
    (hsys : bytesAt b 12 16 = widevineSystemID) (hpay : 32 + u32At b 28 ≤ b.length) :
    Pssh.PsshBox b = some (.ok (bytesAt b 32 (u32At b 28))) ∧
      (bytesAt b 32 (u32At b 28)).length = u32At b 28 := by
  have hv : b.getD 8 0 = 0 := getD_of_getElem? hver
  have hoff : dataSizeOffsetOf b = 28 := by
    unfold dataSizeOffsetOf
    rw [if_neg (by rw [hv]; decide)]
  refine ⟨?_, length_bytesAt b 32 _ hpay⟩
  rw [Pssh.PsshBox_eq_parse_box, parse_box_of_header b hlen htype (Or.inl hv) hsys, hoff,
    if_neg (by rw [hv]; intro h; exact absurd h.1 (by decide)), if_neg (by omega),
    if_neg (by omega)]

/-- C1, at the 44-byte box `box44`: the result is its 12 trailing bytes. -/
theorem Pssh.PsshBox_version0_payload_box44 :
    Pssh.PsshBox box44 = some (.ok payload12) ∧ payload12.length = 12 ∧
      box44.length = 44 ∧ box44.drop 32 = payload12 :=
  ⟨(Pssh.PsshBox_version0_payload box44 (by decide) (by decide) (by decide) (by decide)
      (by decide)).1, by decide, by decide, by decide⟩

/-- C2. Version-1 success: for a buffer with a valid header and version 1,
with `k = u32At b 28` key IDs and room for the length field
(`36 + 16 * k ≤ len b`), the local `dataSizeOffset` is `32 + 16 * k`: the
parser continues as `readPayload` at that offset. When moreover the payload
length `L` read at `32 + 16 * k` fits (`36 + 16 * k + L ≤ len b`), the parser
succeeds and the result is exactly the `L` bytes at
`[36 + 16 * k, 36 + 16 * k + L)`. -/
theorem Pssh.PsshBox_version1_payload (b : List Byte)
    (hlen : 32 ≤ b.length) (htype : bytesAt b 4 4 = psshTag) (hver : b[8]? = some 1)
    (hsys : bytesAt b 12 16 = widevineSystemID)
    (hfield : 36 + 16 * u32At b 28 ≤ b.length) :
    Pssh.PsshBox b = Pssh.PsshBox.readPayload b ((32 + 16 * u32At b 28 : Nat) : Int) ∧
      (36 + 16 * u32At b 28 + u32At b (32 + 16 * u32At b 28) ≤ b.length →
        Pssh.PsshBox b = some (.ok (bytesAt b (36 + 16 * u32At b 28)
          (u32At b (32 + 16 * u32At b 28)))) ∧
        (bytesAt b (36 + 16 * u32At b 28) (u32At b (32 + 16 * u32At b 28))).length
          = u32At b (32 + 16 * u32At b 28)) := by
  have hv : b.getD 8 0 = 1 := getD_of_getElem? hver
  have hk := u32At_lt b 28
  have hoff : dataSizeOffsetOf b = 32 + 16 * u32At b 28 := by
    unfold dataSizeOffsetOf
    rw [if_pos hv]
  have key : Pssh.PsshBox b = Pssh.PsshBox.readPayload b ((32 + 16 * u32At b 28 : Nat) : Int) := by
    rw [Pssh.PsshBox_eq_parse_box, parse_box_of_header b hlen htype (Or.inr hv) hsys, hoff,
      if_neg (by omega), Pssh.readPayload_eq b _ (by omega)]
  refine ⟨key, fun hpay => ⟨?_, length_bytesAt b _ _ hpay⟩⟩
  rw [key, Pssh.readPayload_eq b _ (by omega), if_neg (by omega), if_neg (by omega),
    (by omega : 32 + 16 * u32At b 28 + 4 = 36 + 16 * u32At b 28)]

/-- C2, at the 64-byte version-1 box `box64` with one key ID: the length
field is read at offset 48 and the result is the 12 bytes at `[52, 64)`. -/
theorem Pssh.PsshBox_version1_payload_box64 :
    u32At box64 28 = 1 ∧ u32At box64 48 = 12 ∧ Pssh.PsshBox box64 = some (.ok payload12) ∧
      box64.drop 52 = payload12 :=
  ⟨by decide, by decide,
    ((Pssh.PsshBox_version1_payload box64 (by decide) (by decide) (by decide) (by decide)
      (by decide)).2 (by decide)).1, by decide⟩

/-- On a 64-bit target, version-1 truncation: for a buffer with a valid header and version 1,
if the key IDs and the length field do not fit (`32 + 16 * k + 4 > len b`,
`k = u32At b 28` any 32-bit value), the parser fails with the error of line 33,
"pssh data too short after key IDs for version 1", and there is no payload. -/
theorem Pssh.PsshBox_version1_truncatedAfterKeyIDs (b : List Byte)
    (hlen : 32 ≤ b.length) (htype : bytesAt b 4 4 = psshTag) (hver : b[8]? = some 1)
    (hsys : bytesAt b 12 16 = widevineSystemID)
    (hshort : 32 + 16 * u32At b 28 + 4 > b.length) :
    Pssh.PsshBox b = some (.error .truncatedAfterKeyIDs) ∧
      PsshError.truncatedAfterKeyIDs.format
        = "pssh data too short after key IDs for version 1" ∧
      ∀ payload, Pssh.PsshBox b ≠ some (.ok payload) := by
  have hv : b.getD 8 0 = 1 := getD_of_getElem? hver
  have key : Pssh.PsshBox b = some (.error .truncatedAfterKeyIDs) := by
    rw [Pssh.PsshBox_eq_parse_box, parse_box_of_header b hlen htype (Or.inr hv) hsys,
      if_pos ⟨hv, hshort⟩]
  refine ⟨key, rfl, ?_⟩
  intro payload h
  rw [key] at h
  cases h

/-- On a 64-bit target, `box44Keys`, whose key count is the largest 32-bit
value, fails with the key-ID error. -/
theorem Pssh.PsshBox_version1_truncatedAfterKeyIDs_box44Keys :
    u32At box44Keys 28 = 4294967295 ∧
      Pssh.PsshBox box44Keys = some (.error .truncatedAfterKeyIDs) :=
  ⟨by decide,
    (Pssh.PsshBox_version1_truncatedAfterKeyIDs box44Keys (by decide) (by decide) (by decide)
      (by decide) (by decide)).1⟩

/-- C4. A buffer shorter than 32 bytes, whatever it holds, fails with the
error of line 11 carrying its length, and the outcome is the same for every
buffer of that length: no byte of the buffer takes part in it. -/
theorem Pssh.PsshBox_tooShort (b : List Byte) (hshort : b.length < 32) :
    Pssh.PsshBox b = some (.error (.tooShort (b.length : Int))) ∧
      (∀ payload, Pssh.PsshBox b ≠ some (.ok payload)) ∧
      ∀ c : List Byte, c.length = b.length → Pssh.PsshBox c = Pssh.PsshBox b := by
  have key : ∀ c : List Byte, c.length < 32 →
      Pssh.PsshBox c = some (.error (.tooShort (c.length : Int))) := by
    intro c hc
    rw [Pssh.PsshBox_eq_parse_box]
    unfold parse_box
    rw [if_pos hc]
  refine ⟨key b hshort, ?_, ?_⟩
  · intro payload h
    rw [key b hshort] at h
    cases h
  · intro c hc
    rw [key b hshort, key c (by omega), hc]

/-- C4, at the empty buffer and at the first 31 bytes of `box44`. -/
theorem Pssh.PsshBox_tooShort_examples :
    Pssh.PsshBox [] = some (.error (.tooShort 0)) ∧
      Pssh.PsshBox (box44.take 31) = some (.error (.tooShort 31)) :=
  ⟨(Pssh.PsshBox_tooShort [] (by decide)).1,
    (Pssh.PsshBox_tooShort (box44.take 31) (by decide)).1⟩

/-- On a 64-bit target, a declared payload length that exceeds what is left of the buffer
fails: when the header checks pass and the length field at
`off = dataSizeOffsetOf b` is readable (`off + 4 ≤ len b`), a `dataSize`
larger than `len b - (off + 4)` gives the error of line 41 carrying
`dataSize` and `len b - (off + 4)`; and whenever the parser succeeds, the
payload is the bytes at `[off + 4, off + 4 + dataSize)` and its length is
exactly `dataSize`. -/
theorem Pssh.PsshBox_truncatedPayload (b : List Byte) :
    (32 ≤ b.length → bytesAt b 4 4 = psshTag → (b[8]? = some 0 ∨ b[8]? = some 1) →
      bytesAt b 12 16 = widevineSystemID → dataSizeOffsetOf b + 4 ≤ b.length →
      u32At b (dataSizeOffsetOf b) > b.length - (dataSizeOffsetOf b + 4) →
      Pssh.PsshBox b = some (.error (.truncatedPayload (u32At b (dataSizeOffsetOf b))
        ((b.length - (dataSizeOffsetOf b + 4) : Nat) : Int)))) ∧
    (∀ payload, Pssh.PsshBox b = some (.ok payload) →
      payload = bytesAt b (dataSizeOffsetOf b + 4) (u32At b (dataSizeOffsetOf b)) ∧
      payload.length = u32At b (dataSizeOffsetOf b)) := by
  constructor
  · intro hlen htype hver hsys hfield hbig
    have hv : b.getD 8 0 = 0 ∨ b.getD 8 0 = 1 :=
      hver.imp getD_of_getElem? getD_of_getElem?
    have hkey : ¬ (b.getD 8 0 = 1 ∧ b.length < 32 + 16 * u32At b 28 + 4) := by
      rintro ⟨h1, h2⟩
      have : dataSizeOffsetOf b = 32 + 16 * u32At b 28 := by
        unfold dataSizeOffsetOf
        rw [if_pos h1]
      omega
    rw [Pssh.PsshBox_eq_parse_box, parse_box_of_header b hlen htype hv hsys, if_neg hkey,
      if_neg (by omega), if_pos (by omega)]
    congr 4
    omega
  · intro payload h
    rw [Pssh.PsshBox_eq_parse_box] at h
    have h2 : parse_box b = .ok payload := Option.some.inj h
    unfold parse_box at h2
    split_ifs at h2
    cases h2
    exact ⟨rfl, length_bytesAt b _ _ (by omega)⟩

/-- On a 64-bit target, `box44Long`, which declares 13 payload bytes and
holds 12, fails with the payload error. -/
theorem Pssh.PsshBox_truncatedPayload_box44Long :
    Pssh.PsshBox box44Long = some (.error (.truncatedPayload 13 12)) :=
  (Pssh.PsshBox_truncatedPayload box44Long).1 (by decide) (by decide) (by decide) (by decide)
    (by decide) (by decide)

theorem getElem?_bytesAt (s : List Byte) (off n j : Nat) (h : j < n) :
    (bytesAt s off n)[j]? = s[off + j]? := by
  unfold bytesAt
  rw [List.getElem?_take_of_lt h, List.getElem?_drop]

theorem bytesAt_set_of_le (s : List Byte) (off n i : Nat) (x : Byte) (h : off + n ≤ i) :
    bytesAt (s.set i x) off n = bytesAt s off n := by
  apply List.ext_getElem?
  intro j
  by_cases hj : j < n
  · rw [getElem?_bytesAt _ _ _ _ hj, getElem?_bytesAt _ _ _ _ hj,
      List.getElem?_set_ne (by omega)]
  · unfold bytesAt
    rw [List.getElem?_take_eq_none (by omega), List.getElem?_take_eq_none (by omega)]

/-- The system-ID check of line 22 fails exactly as the spec words it. -/
theorem parse_box_wrongSystemID (b : List Byte) (hlen : 32 ≤ b.length)
    (htype : bytesAt b 4 4 = psshTag) (hver : b.getD 8 0 = 0 ∨ b.getD 8 0 = 1)
    (hsys : bytesAt b 12 16 ≠ widevineSystemID) :
    parse_box b = .error (.wrongSystemID (bytesAt b 12 16)) := by
  unfold parse_box
  rw [if_neg (by omega), if_neg (fun h => h htype),
    if_neg (fun h => hver.elim h.1 h.2), if_pos hsys]

/-- C6. For a buffer of at least 32 bytes with type `pssh` and version 0 or
1: the parser fails with the system-ID error of line 23 if and only if the
bytes at `[12, 28)` differ from the Widevine constant, and the error carries
those 16 bytes; in particular, overwriting one byte at an offset `i` in
`[12, 28)` with a value other than the byte of the constant at `i - 12`
makes the parser fail with that error, whatever the rest of the buffer. -/
theorem Pssh.PsshBox_wrongSystemID_iff (b : List Byte)
    (hlen : 32 ≤ b.length) (htype : bytesAt b 4 4 = psshTag)
    (hver : b[8]? = some 0 ∨ b[8]? = some 1) :
    ((∃ found, Pssh.PsshBox b = some (.error (.wrongSystemID found))) ↔
        bytesAt b 12 16 ≠ widevineSystemID) ∧
      (bytesAt b 12 16 ≠ widevineSystemID →
        Pssh.PsshBox b = some (.error (.wrongSystemID (bytesAt b 12 16)))) ∧
      (∀ (i : Nat) (x : Byte), 12 ≤ i → i < 28 → widevineSystemID[i - 12]? ≠ some x →
        Pssh.PsshBox (b.set i x)
          = some (.error (.wrongSystemID (bytesAt (b.set i x) 12 16))) ∧
        (bytesAt (b.set i x) 12 16)[i - 12]? = some x) := by
  have hv : b.getD 8 0 = 0 ∨ b.getD 8 0 = 1 := hver.imp getD_of_getElem? getD_of_getElem?
  have fails : bytesAt b 12 16 ≠ widevineSystemID →
      Pssh.PsshBox b = some (.error (.wrongSystemID (bytesAt b 12 16))) := by
    intro hsys
    rw [Pssh.PsshBox_eq_parse_box, parse_box_wrongSystemID b hlen htype hv hsys]
  refine ⟨⟨?_, fun hsys => ⟨_, fails hsys⟩⟩, fails, ?_⟩
  · rintro ⟨found, h⟩ hsys
    rw [Pssh.PsshBox_eq_parse_box, parse_box_of_header b hlen htype hv hsys] at h
    split_ifs at h <;> cases h
  · intro i x hi12 hi28 hx
    have hlen2 : 32 ≤ (b.set i x).length := by rw [List.length_set]; exact hlen
    have htype2 : bytesAt (b.set i x) 4 4 = psshTag := by
      rw [bytesAt_set_of_le b 4 4 i x (by omega)]
      exact htype
    have hv2 : (b.set i x).getD 8 0 = 0 ∨ (b.set i x).getD 8 0 = 1 := by
      rw [List.getD_eq_getElem?_getD, List.getElem?_set_ne (by omega),
        ← List.getD_eq_getElem?_getD]
      exact hv
    have hget : (bytesAt (b.set i x) 12 16)[i - 12]? = some x := by
      rw [getElem?_bytesAt _ _ _ _ (by omega), (by omega : 12 + (i - 12) = i),
        List.getElem?_set_self (by omega)]
    have hsys2 : bytesAt (b.set i x) 12 16 ≠ widevineSystemID := by
      intro h
      rw [h] at hget
      exact hx hget
    refine ⟨?_, hget⟩
    rw [Pssh.PsshBox_eq_parse_box, parse_box_wrongSystemID _ hlen2 htype2 hv2 hsys2]

/-- C6, at `box44` with the first byte of its system ID overwritten by 0. -/
theorem Pssh.PsshBox_wrongSystemID_box44 :
    Pssh.PsshBox box44 = some (.ok payload12) ∧
      Pssh.PsshBox (box44.set 12 0x00) = some (.error (.wrongSystemID
        [0x00, 0xEF, 0x8B, 0xA9, 0x79, 0xD6, 0x4A, 0xCE,
         0xA3, 0xC8, 0x27, 0xDC, 0xD5, 0x1D, 0x21, 0xED])) :=
  ⟨by decide,
    ((Pssh.PsshBox_wrongSystemID_iff box44 (by decide) (by decide) (by decide)).2.2 12 0x00
      (by decide) (by decide) (by decide)).1⟩

/-- C7. For a buffer of at least 32 bytes with type `pssh`, a version byte
`v` other than 0 and 1 gives the error of line 18 carrying exactly `v`; the
system ID and everything after it play no part. -/
theorem Pssh.PsshBox_unsupportedVersion (b : List Byte)
    (hlen : 32 ≤ b.length) (htype : bytesAt b 4 4 = psshTag)
    (v : Byte) (hver : b[8]? = some v) (h0 : v ≠ 0) (h1 : v ≠ 1) :
    Pssh.PsshBox b = some (.error (.unsupportedVersion v)) := by
  have hv : b.getD 8 0 = v := getD_of_getElem? hver
  rw [Pssh.PsshBox_eq_parse_box]
  unfold parse_box
  rw [if_neg (by omega), if_neg (fun h => h htype), hv, if_pos ⟨h0, h1⟩]

/-- C7, at `box44` with its version byte set to 2. -/
theorem Pssh.PsshBox_unsupportedVersion_box44 :
    Pssh.PsshBox (box44.set 8 2) = some (.error (.unsupportedVersion 2)) :=
  Pssh.PsshBox_unsupportedVersion (box44.set 8 2) (by decide) (by decide) 2 (by decide)
    (by decide) (by decide)

/-- On a 64-bit target, validation order: the error is that of the first check that fails,
in the order length, box type, version, system ID, version-1 key IDs,
payload; each line below assumes that the checks before it pass and nothing
about the checks after it. In particular a buffer of at least 32 bytes whose
bytes at `[4, 8)` are not `pssh` fails with the box-type error carrying those
four bytes, whatever its version and system ID. When no check fails the
parser succeeds. -/
theorem Pssh.PsshBox_validation_order (b : List Byte) :
    (b.length < 32 → Pssh.PsshBox b = some (.error (.tooShort (b.length : Int)))) ∧
    (32 ≤ b.length → bytesAt b 4 4 ≠ psshTag →
      Pssh.PsshBox b = some (.error (.wrongBoxType (bytesAt b 4 4)))) ∧
    (32 ≤ b.length → bytesAt b 4 4 = psshTag →
      ∀ v : Byte, b[8]? = some v → v ≠ 0 → v ≠ 1 →
      Pssh.PsshBox b = some (.error (.unsupportedVersion v))) ∧
    (32 ≤ b.length → bytesAt b 4 4 = psshTag → (b[8]? = some 0 ∨ b[8]? = some 1) →
      bytesAt b 12 16 ≠ widevineSystemID →
      Pssh.PsshBox b = some (.error (.wrongSystemID (bytesAt b 12 16)))) ∧
    (32 ≤ b.length → bytesAt b 4 4 = psshTag → b[8]? = some 1 →
      bytesAt b 12 16 = widevineSystemID → b.length < 32 + 16 * u32At b 28 + 4 →
      Pssh.PsshBox b = some (.error .truncatedAfterKeyIDs)) ∧
    (32 ≤ b.length → bytesAt b 4 4 = psshTag → (b[8]? = some 0 ∨ b[8]? = some 1) →
      bytesAt b 12 16 = widevineSystemID → dataSizeOffsetOf b + 4 ≤ b.length →
      b.length < dataSizeOffsetOf b + 4 + u32At b (dataSizeOffsetOf b) →
      Pssh.PsshBox b = some (.error (.truncatedPayload (u32At b (dataSizeOffsetOf b))
        ((b.length : Int) - ((dataSizeOffsetOf b : Int) + 4))))) ∧
    (32 ≤ b.length → bytesAt b 4 4 = psshTag → (b[8]? = some 0 ∨ b[8]? = some 1) →
      bytesAt b 12 16 = widevineSystemID → dataSizeOffsetOf b + 4 ≤ b.length →
      dataSizeOffsetOf b + 4 + u32At b (dataSizeOffsetOf b) ≤ b.length →
      Pssh.PsshBox b = some (.ok (bytesAt b (dataSizeOffsetOf b + 4)
        (u32At b (dataSizeOffsetOf b))))) := by
  have tail : 32 ≤ b.length → bytesAt b 4 4 = psshTag → (b[8]? = some 0 ∨ b[8]? = some 1) →
      bytesAt b 12 16 = widevineSystemID → dataSizeOffsetOf b + 4 ≤ b.length →
      Pssh.PsshBox b = some (
        if b.length < dataSizeOffsetOf b + 4 + u32At b (dataSizeOffsetOf b) then
          .error (.truncatedPayload (u32At b (dataSizeOffsetOf b))
            ((b.length : Int) - ((dataSizeOffsetOf b : Int) + 4)))
        else
          .ok (bytesAt b (dataSizeOffsetOf b + 4) (u32At b (dataSizeOffsetOf b)))) := by
    intro hlen htype hver hsys hfield
    have hv : b.getD 8 0 = 0 ∨ b.getD 8 0 = 1 := hver.imp getD_of_getElem? getD_of_getElem?
    have hkey : ¬ (b.getD 8 0 = 1 ∧ b.length < 32 + 16 * u32At b 28 + 4) := by
      rintro ⟨h1, h2⟩
      have : dataSizeOffsetOf b = 32 + 16 * u32At b 28 := by
        unfold dataSizeOffsetOf
        rw [if_pos h1]
      omega
    rw [Pssh.PsshBox_eq_parse_box, parse_box_of_header b hlen htype hv hsys, if_neg hkey,
      if_neg (by omega)]
  refine ⟨?_, ?_, ?_, ?_, ?_, ?_, ?_⟩
  · intro hlen
    rw [Pssh.PsshBox_eq_parse_box]
    unfold parse_box
    rw [if_pos hlen]
  · intro hlen htype
    rw [Pssh.PsshBox_eq_parse_box]
    unfold parse_box
    rw [if_neg (by omega), if_pos htype]
  · intro hlen htype v hver h0 h1
    rw [Pssh.PsshBox_eq_parse_box]
    unfold parse_box
    rw [if_neg (by omega), if_neg (fun h => h htype), getD_of_getElem? hver, if_pos ⟨h0, h1⟩]
  · intro hlen htype hver hsys
    rw [Pssh.PsshBox_eq_parse_box, parse_box_wrongSystemID b hlen htype
      (hver.imp getD_of_getElem? getD_of_getElem?) hsys]
  · intro hlen htype hver hsys hshort
    have hv : b.getD 8 0 = 1 := getD_of_getElem? hver
    rw [Pssh.PsshBox_eq_parse_box, parse_box_of_header b hlen htype (Or.inr hv) hsys,
      if_pos ⟨hv, hshort⟩]
  · intro hlen htype hver hsys hfield hshort
    rw [tail hlen htype hver hsys hfield, if_pos hshort]
  · intro hlen htype hver hsys hfield hfits
    rw [tail hlen htype hver hsys hfield, if_neg (by omega)]

/-- On a 64-bit target, at `junk32`: box type, version and system ID are all invalid, and the
error is the box-type one. At `box44` with an invalid version and an invalid
system ID the error is the version one. -/
theorem Pssh.PsshBox_validation_order_examples :
    Pssh.PsshBox junk32 = some (.error (.wrongBoxType [0xFF, 0xFF, 0xFF, 0xFF])) ∧
      Pssh.PsshBox ((box44.set 8 7).set 12 0x00) = some (.error (.unsupportedVersion 7)) :=
  ⟨(Pssh.PsshBox_validation_order junk32).2.1 (by decide) (by decide),
    (Pssh.PsshBox_validation_order ((box44.set 8 7).set 12 0x00)).2.2.1 (by decide) (by decide)
      7 (by decide) (by decide) (by decide)⟩

/-- On a 64-bit target `PsshBox` is total and bounds-safe: on every byte sequence every slice
and index expression it evaluates is within bounds (the run is not the panic
`none`), and the call returns either a payload or an error. -/
theorem Pssh.PsshBox_total (b : List Byte) :
    Pssh.PsshBox b ≠ none ∧
      ((∃ payload, Pssh.PsshBox b = some (.ok payload)) ∨
        (∃ err, Pssh.PsshBox b = some (.error err))) := by
  rw [Pssh.PsshBox_eq_parse_box]
  refine ⟨Option.some_ne_none _, ?_⟩
  cases parse_box b with
  | ok payload => exact Or.inl ⟨payload, rfl⟩
  | error err => exact Or.inr ⟨err, rfl⟩

/-! ## The parser of `src/psshbox.go` -/

/-- C10. `PsshBox` of `src/psshbox.go` writes to standard output: on the valid
44-byte box `box44`, started with nothing written, it returns the payload and
leaves the line `PSSH Box Version: 0` on standard output. -/
theorem Psshbox.PsshBox_writes_stdout :
    Psshbox.PsshBox box44 [] = (some (.ok payload12), ["PSSH Box Version: 0\n"]) := by
  decide

/-! ## The two parsers side by side -/

theorem Psshbox.readPayload_eq_pssh (b : List Byte) (off : Int) :
    Psshbox.PsshBox.readPayload b off = Pssh.PsshBox.readPayload b off := rfl

theorem Psshbox.PsshBox_eq (b : List Byte) (out : List String) :
    Psshbox.PsshBox b out = (some (parse_box b),
      if 32 ≤ b.length ∧ bytesAt b 4 4 = psshTag then
        out ++ ["PSSH Box Version: " ++ toString (b.getD 8 0).val ++ "\n"]
      else out) := by
  unfold Psshbox.PsshBox parse_box
  by_cases h0 : b.length < 32
  · rw [if_pos (by unfold len; omega), if_pos h0, if_neg (fun h => absurd h.1 (by omega))]
    rfl
  · have s48 : slice b 4 8 = some (bytesAt b 4 4) :=
      slice_eq_bytesAt b 4 8 (by omega) (by omega)
    have i8 : index b 8 = some (b.getD 8 0) := index_eq_getD b 8 (by omega)
    have s1228 : slice b 12 28 = some (bytesAt b 12 16) :=
      slice_eq_bytesAt b 12 28 (by omega) (by omega)
    have s2832 : slice b 28 32 = some (bytesAt b 28 4) :=
      slice_eq_bytesAt b 28 32 (by omega) (by omega)
    have hk := u32At_lt b 28
    rw [if_neg (by unfold len; omega), if_neg h0, s48]
    dsimp only
    by_cases h1 : bytesAt b 4 4 ≠ psshTag
    · rw [if_pos h1, if_pos h1, if_neg (fun h => h1 h.2)]
    · rw [if_neg h1, if_neg h1,
        if_pos (show 32 ≤ b.length ∧ bytesAt b 4 4 = psshTag from ⟨by omega, not_not.mp h1⟩), i8]
      dsimp only
      by_cases h2 : b.getD 8 0 ≠ 0 ∧ b.getD 8 0 ≠ 1
      · rw [if_pos h2, if_pos h2]
      · rw [if_neg h2, if_neg h2, s1228]
        dsimp only
        by_cases h3 : bytesAt b 12 16 ≠ widevineSystemID
        · rw [if_pos h3, if_pos h3]
        · rw [if_neg h3, if_neg h3]
          by_cases h4 : b.getD 8 0 = 1
          · have w0 : wrapInt (32 + wrapInt ((u32At b 28 : Int) * 16))
                = ((32 + 16 * u32At b 28 : Nat) : Int) := by
              rw [wrapInt_eq_self (x := (u32At b 28 : Int) * 16) (by omega) (by omega),
                wrapInt_eq_self (by omega) (by omega)]
              push_cast
              ring
            have w1 : wrapInt (((32 + 16 * u32At b 28 : Nat) : Int) + 4)
                = ((32 + 16 * u32At b 28 + 4 : Nat) : Int) := by
              rw [wrapInt_eq_self] <;> push_cast <;> omega
            have hoff : dataSizeOffsetOf b = 32 + 16 * u32At b 28 := by
              unfold dataSizeOffsetOf
              rw [if_pos h4]
            rw [if_pos h4, if_neg (by unfold len; omega), s2832, Option.some_bind,
              Uint32_bytesAt b 28 (by omega)]
            dsimp only
            rw [w0, w1, hoff]
            by_cases h5 : b.length < 32 + 16 * u32At b 28 + 4
            · rw [if_pos (by unfold len; omega), if_pos ⟨h4, h5⟩]
            · rw [if_neg (by unfold len; omega), if_neg (fun h => h5 h.2),
                Psshbox.readPayload_eq_pssh,
                Pssh.readPayload_eq b (32 + 16 * u32At b 28) (by omega)]
          · have hoff : dataSizeOffsetOf b = 28 := by
              unfold dataSizeOffsetOf
              rw [if_neg h4]
            rw [if_neg h4, if_neg (fun h => h4 h.1), hoff, Psshbox.readPayload_eq_pssh]
            exact congrArg (fun r => (r, _)) (Pssh.readPayload_eq b 28 (by omega))

/-- C11. The two implementations compute the same function: on every buffer,
and whatever standard output holds, `PsshBox` of `src/psshbox.go` returns what
`PsshBox` of `src/pssh.go` returns, the same payload or the same error with
the same arguments. -/
theorem PsshBox_implementations_agree (b : List Byte) (out : List String) :
    (Psshbox.PsshBox b out).1 = Pssh.PsshBox b := by
  rw [Psshbox.PsshBox_eq, Pssh.PsshBox_eq_parse_box]

theorem parse_box_ne_truncatedLengthField (b : List Byte) (off : Int) :
    parse_box b ≠ .error (.truncatedLengthField off) := by
  intro h
  unfold parse_box at h
  split_ifs at h with h1 h2 h3 h4 h5 h6 h7 <;> first | (cases h; done) | skip
  by_cases hv : b.getD 8 0 = 1
  · have hoff : dataSizeOffsetOf b = 32 + 16 * u32At b 28 := by
      unfold dataSizeOffsetOf
      rw [if_pos hv]
    exact h5 ⟨hv, by omega⟩
  · have hoff : dataSizeOffsetOf b = 28 := by
      unfold dataSizeOffsetOf
      rw [if_neg hv]
    omega

/-- C16. The check of line 36 (line 60 of `src/psshbox.go`) never fires: on
no buffer does either `PsshBox` return the error "pssh data truncated: cannot
read dataSize at offset ...", whatever the offset it would carry. -/
theorem PsshBox_never_truncatedLengthField (b : List Byte) (off : Int) :
    Pssh.PsshBox b ≠ some (.error (.truncatedLengthField off)) ∧
      (∀ out, (Psshbox.PsshBox b out).1 ≠ some (.error (.truncatedLengthField off))) ∧
      (PsshError.truncatedLengthField off).format
        = "pssh data truncated: cannot read dataSize at offset %d" := by
  refine ⟨?_, ?_, rfl⟩
  · rw [Pssh.PsshBox_eq_parse_box]
    intro h
    exact parse_box_ne_truncatedLengthField b off (Option.some.inj h)
  · intro out
    rw [Psshbox.PsshBox_eq]
    intro h
    exact parse_box_ne_truncatedLengthField b off (Option.some.inj h)

/-- C17. With `int` 64 bits wide the offset arithmetic never wraps: for a key
count and a payload length below `2 ^ 32`, `32 + int(keyCount)*16`,
`dataSizeOffset + 4` and `dataSizeOffset + 4 + int(dataSize)` (for the
offset 28 of version 0 and the offset `32 + keyCount*16` of version 1) equal
the same expressions over the integers, and lie in `[0, 2 ^ 63)`; so the
parser agrees on every buffer with `parse_box`, which compares true offsets. -/
theorem PsshBox_offsets_exact (keyCount dataSize : Nat)
    (hk : keyCount < 2 ^ 32) (hd : dataSize < 2 ^ 32) :
    wrapInt ((keyCount : Int) * 16) = (keyCount : Int) * 16 ∧
      wrapInt (32 + wrapInt ((keyCount : Int) * 16)) = 32 + (keyCount : Int) * 16 ∧
      (∀ dataSizeOffset : Int,
        dataSizeOffset = 28 ∨ dataSizeOffset = wrapInt (32 + wrapInt ((keyCount : Int) * 16)) →
        wrapInt (dataSizeOffset + 4) = dataSizeOffset + 4 ∧
        wrapInt (wrapInt (dataSizeOffset + 4) + (dataSize : Int))
          = dataSizeOffset + 4 + (dataSize : Int) ∧
        0 ≤ dataSizeOffset ∧ dataSizeOffset + 4 + (dataSize : Int) < 2 ^ 63) ∧
      ∀ b : List Byte, Pssh.PsshBox b = some (parse_box b) := by
  have w1 : wrapInt ((keyCount : Int) * 16) = (keyCount : Int) * 16 :=
    wrapInt_eq_self (by omega) (by omega)
  have w2 : wrapInt (32 + wrapInt ((keyCount : Int) * 16)) = 32 + (keyCount : Int) * 16 := by
    rw [w1]
    exact wrapInt_eq_self (by omega) (by omega)
  refine ⟨w1, w2, ?_, Pssh.PsshBox_eq_parse_box⟩
  intro off hoff
  rw [w2] at hoff
  have w3 : wrapInt (off + 4) = off + 4 := by
    rcases hoff with h | h <;> exact wrapInt_eq_self (by omega) (by omega)
  have w4 : wrapInt (off + 4 + (dataSize : Int)) = off + 4 + (dataSize : Int) := by
    rcases hoff with h | h <;> exact wrapInt_eq_self (by omega) (by omega)
  rw [w3, w4]
  refine ⟨rfl, rfl, ?_, ?_⟩ <;> rcases hoff with h | h <;> omega

/-- C17, at the largest key count and payload length, `2 ^ 32 - 1`. -/
theorem PsshBox_offsets_exact_max :
    wrapInt (32 + wrapInt (((4294967295 : Nat) : Int) * 16)) = 68719476752 ∧
      wrapInt (wrapInt (68719476752 + 4) + ((4294967295 : Nat) : Int)) = 73014444051 := by
  have h := PsshBox_offsets_exact 4294967295 4294967295 (by decide) (by decide)
  refine ⟨h.2.1.trans (by decide), ?_⟩
  have h2 := (h.2.2.1 68719476752 (Or.inr (h.2.1.trans (by decide)).symm)).2.1
  exact h2.trans (by decide)

theorem bytesAt_append (b t : List Byte) (off n : Nat) (h : off + n ≤ b.length) :
    bytesAt (b ++ t) off n = bytesAt b off n := by
  unfold bytesAt
  rw [List.drop_append_of_le_length (by omega),
    List.take_append_of_le_length (by rw [List.length_drop]; omega)]

theorem getD_append_left (b t : List Byte) (i : Nat) (h : i < b.length) :
    (b ++ t).getD i 0 = b.getD i 0 := by
  rw [List.getD_eq_getElem?_getD, List.getD_eq_getElem?_getD, List.getElem?_append_left h]

theorem u32At_append (b t : List Byte) (off : Nat) (h : off + 4 ≤ b.length) :
    u32At (b ++ t) off = u32At b off := by
  unfold u32At
  rw [getD_append_left b t off (by omega), getD_append_left b t (off + 1) (by omega),
    getD_append_left b t (off + 2) (by omega), getD_append_left b t (off + 3) (by omega)]

/-- C18. Trailing bytes are ignored: if the parser succeeds on `b` with
payload `p`, it succeeds with the same payload on `b ++ t` for every `t`. -/
theorem Pssh.PsshBox_append (b t p : List Byte) (h : Pssh.PsshBox b = some (.ok p)) :
    Pssh.PsshBox (b ++ t) = some (.ok p) := by
  rw [Pssh.PsshBox_eq_parse_box] at h
  have h2 : parse_box b = .ok p := Option.some.inj h
  unfold parse_box at h2
  split_ifs at h2 with h1 h3 h4 h5 h6 h7 h8
  have hk := u32At_lt b 28
  have e1 : bytesAt (b ++ t) 4 4 = bytesAt b 4 4 := bytesAt_append b t 4 4 (by omega)
  have e2 : (b ++ t).getD 8 0 = b.getD 8 0 := getD_append_left b t 8 (by omega)
  have e3 : bytesAt (b ++ t) 12 16 = bytesAt b 12 16 := bytesAt_append b t 12 16 (by omega)
  have e4 : u32At (b ++ t) 28 = u32At b 28 := u32At_append b t 28 (by omega)
  have e5 : dataSizeOffsetOf (b ++ t) = dataSizeOffsetOf b := by
    unfold dataSizeOffsetOf
    rw [e2, e4]
  have e6 : u32At (b ++ t) (dataSizeOffsetOf b) = u32At b (dataSizeOffsetOf b) :=
    u32At_append b t _ (by omega)
  have e7 : bytesAt (b ++ t) (dataSizeOffsetOf b + 4) (u32At b (dataSizeOffsetOf b))
      = bytesAt b (dataSizeOffsetOf b + 4) (u32At b (dataSizeOffsetOf b)) :=
    bytesAt_append b t _ _ (by omega)
  rw [Pssh.PsshBox_eq_parse_box]
  unfold parse_box
  rw [e5, e1, e2, e3, e4, e6, e7, List.length_append, if_neg (by omega), if_neg h3, if_neg h4,
    if_neg h5, if_neg (fun hh => h6 ⟨hh.1, by omega⟩), if_neg (by omega), if_neg (by omega)]
  exact congrArg some h2

/-- C18, at `box44` followed by three more bytes. -/
theorem Pssh.PsshBox_append_box44 :
    Pssh.PsshBox box44 = some (.ok payload12) ∧
      Pssh.PsshBox (box44 ++ [0x01, 0x02, 0x03]) = some (.ok payload12) :=
  ⟨by decide, Pssh.PsshBox_append box44 [0x01, 0x02, 0x03] payload12 (by decide)⟩

theorem bytesAt_congr (b d : List Byte) (off n : Nat)
    (h : ∀ j, j < n → b[off + j]? = d[off + j]?) : bytesAt b off n = bytesAt d off n := by
  apply List.ext_getElem?
  intro j
  by_cases hj : j < n
  · rw [getElem?_bytesAt _ _ _ _ hj, getElem?_bytesAt _ _ _ _ hj, h j hj]
  · unfold bytesAt
    rw [List.getElem?_take_eq_none (by omega), List.getElem?_take_eq_none (by omega)]

theorem getD_congr (b d : List Byte) (i : Nat) (h : b[i]? = d[i]?) :
    b.getD i 0 = d.getD i 0 := by
  rw [List.getD_eq_getElem?_getD, List.getD_eq_getElem?_getD, h]

theorem u32At_congr (b d : List Byte) (off : Nat)
    (h : ∀ j, j < 4 → b[off + j]? = d[off + j]?) : u32At b off = u32At d off := by
  unfold u32At
  rw [getD_congr b d off (h 0 (by omega)), getD_congr b d (off + 1) (h 1 (by omega)),
    getD_congr b d (off + 2) (h 2 (by omega)), getD_congr b d (off + 3) (h 3 (by omega))]

theorem le_dataSizeOffsetOf (b : List Byte) : 28 ≤ dataSizeOffsetOf b := by
  unfold dataSizeOffsetOf
  split_ifs <;> omega

/-- C19. The result does not depend on the declared box size or on the
flags: two buffers of the same length that agree at every offset other than
0..3 and 9..11 give the same result, payload or error with its arguments. In
particular no comparison involves the size field. -/
theorem Pssh.PsshBox_ignores_size_and_flags (b d : List Byte)
    (hlen : b.length = d.length)
    (hagree : ∀ i : Nat, 4 ≤ i → ¬ (9 ≤ i ∧ i ≤ 11) → b[i]? = d[i]?) :
    Pssh.PsshBox b = Pssh.PsshBox d := by
  have e1 : bytesAt b 4 4 = bytesAt d 4 4 :=
    bytesAt_congr b d 4 4 (fun j hj => hagree _ (by omega) (by omega))
  have e2 : b.getD 8 0 = d.getD 8 0 := getD_congr b d 8 (hagree 8 (by omega) (by omega))
  have e3 : bytesAt b 12 16 = bytesAt d 12 16 :=
    bytesAt_congr b d 12 16 (fun j _ => hagree _ (by omega) (by omega))
  have e4 : u32At b 28 = u32At d 28 :=
    u32At_congr b d 28 (fun j _ => hagree _ (by omega) (by omega))
  have e5 : dataSizeOffsetOf b = dataSizeOffsetOf d := by
    unfold dataSizeOffsetOf
    rw [e2, e4]
  have h28 := le_dataSizeOffsetOf d
  have e6 : u32At b (dataSizeOffsetOf d) = u32At d (dataSizeOffsetOf d) :=
    u32At_congr b d _ (fun j _ => hagree _ (by omega) (by omega))
  have e7 : bytesAt b (dataSizeOffsetOf d + 4) (u32At d (dataSizeOffsetOf d))
      = bytesAt d (dataSizeOffsetOf d + 4) (u32At d (dataSizeOffsetOf d)) :=
    bytesAt_congr b d _ _ (fun j _ => hagree _ (by omega) (by omega))
  rw [Pssh.PsshBox_eq_parse_box, Pssh.PsshBox_eq_parse_box]
  congr 1
  unfold parse_box
  rw [e5, e1, e2, e3, e4, e6, e7, hlen]

/-- C19, at `box44` against the same box with size `0xFFFFFFFF` and flags
`0xABCDEF`: both give the 12-byte payload, though the second declares far
more bytes than the 44 it has. -/
theorem Pssh.PsshBox_ignores_size_and_flags_box44 :
    Pssh.PsshBox [0xFF, 0xFF, 0xFF, 0xFF, 0x70, 0x73, 0x73, 0x68, 0x00, 0xAB, 0xCD, 0xEF,
        0xED, 0xEF, 0x8B, 0xA9, 0x79, 0xD6, 0x4A, 0xCE,
        0xA3, 0xC8, 0x27, 0xDC, 0xD5, 0x1D, 0x21, 0xED,
        0x00, 0x00, 0x00, 0x0C,
        0x08, 0x01, 0x12, 0x04, 0xDE, 0xAD, 0xBE, 0xEF, 0x22, 0x02, 0x68, 0x69]
      = Pssh.PsshBox box44 ∧ Pssh.PsshBox box44 = some (.ok payload12) :=
  ⟨Pssh.PsshBox_ignores_size_and_flags _ box44 (by decide) (by
      intro i h4 h9
      by_cases hi : i < 44
      · interval_cases i <;> first | rfl | omega
      · rw [List.getElem?_eq_none (by simp; omega), List.getElem?_eq_none (by simp [box44]; omega)]),
    by decide⟩

/-! ## The license session -/

/-- The keys `Open` builds from the entries `cs` with the cipher `block`: the
entries with a non-empty ID, in order, each turned into a `Key`. -/
theorem Open.foldl_addKey (C : Collaborators) (block : Option C.CipherBlock)
    (cs : List C.KeyContainer) (s : Session C) :
    cs.foldl (Open.addKey C block) s =
      { s with keys := (s.keys ++
          (cs.filter (fun k => decide ((C.Id k).length ≠ 0))).map
            (fun k => { ID := C.Id k, IV := C.iv k, Key := C.Key k block })) } := by
  induction cs generalizing s with
  | nil => simp
  | cons k rest ih =>
    rw [List.foldl_cons, ih]
    by_cases hk : (C.Id k).length = 0
    · have hk2 : C.Id k = [] := List.length_eq_zero.mp hk
      simp [Open.addKey, hk, hk2, List.filter_cons]
    · have hk2 : C.Id k ≠ [] := fun h => hk (List.length_eq_zero.mpr h)
      simp [Open.addKey, hk, hk2, List.filter_cons]

/-- The function `Open` by cases on the three collaborator calls. -/
theorem Open_eq (C : Collaborators) (privateKey clientID pssh licenseResponse : List Byte) :
    Open C privateKey clientID pssh licenseResponse =
      match (C.New C.zeroCdm privateKey clientID pssh).2 with
      | some err => (none, some err)
      | none =>
        match (C.Unmarshal C.zeroResponseBody licenseResponse).2 with
        | some err => (none, some err)
        | none =>
          match (C.Block (C.New C.zeroCdm privateKey clientID pssh).1
              (C.Unmarshal C.zeroResponseBody licenseResponse).1).2.2 with
          | some err => (none, some err)
          | none =>
            (some
              { cdm := (C.Block (C.New C.zeroCdm privateKey clientID pssh).1
                  (C.Unmarshal C.zeroResponseBody licenseResponse).1).1
                block := (C.Block (C.New C.zeroCdm privateKey clientID pssh).1
                  (C.Unmarshal C.zeroResponseBody licenseResponse).1).2.1
                keys := (((C.Container (C.Unmarshal C.zeroResponseBody licenseResponse).1).filter
                    (fun k => decide ((C.Id k).length ≠ 0))).map
                  (fun k => { ID := C.Id k, IV := C.iv k,
                              Key := C.Key k (C.Block (C.New C.zeroCdm privateKey clientID pssh).1
                                (C.Unmarshal C.zeroResponseBody licenseResponse).1).2.1 })) },
             none) := by
  unfold Open
  simp only [Session.zero, Open.foldl_addKey, List.nil_append]

/-- C12. For every successful `Open`, the key collection is the decoder's
sequence of key containers with the empty-ID entries removed, in the
decoder's order, each kept entry `k` turned into
`Key{ID: k.Id(), IV: k.iv(), Key: k.Key(block)}` with `block` the cipher of
the session, which is the one `Block` derived. In particular two containers,
the first with an empty ID and the second with a non-empty one, give exactly
one key, that of the second. -/
theorem Open_keys (C : Collaborators) (privateKey clientID pssh licenseResponse : List Byte)
    (s : Session C) (h : (Open C privateKey clientID pssh licenseResponse).1 = some s) :
    s.Keys = ((C.Container (Open.decoded C licenseResponse).1).filter
        (fun k => decide ((C.Id k).length ≠ 0))).map
        (fun k => { ID := C.Id k, IV := C.iv k, Key := C.Key k s.block }) ∧
      s.block = (Open.derived C privateKey clientID pssh licenseResponse).2.1 ∧
      (∀ k1 k2, C.Container (Open.decoded C licenseResponse).1 = [k1, k2] →
        C.Id k1 = [] → C.Id k2 ≠ [] →
        s.Keys = [{ ID := C.Id k2, IV := C.iv k2, Key := C.Key k2 s.block }]) := by
  have hkeys : s.Keys = ((C.Container (Open.decoded C licenseResponse).1).filter
        (fun k => decide ((C.Id k).length ≠ 0))).map
        (fun k => { ID := C.Id k, IV := C.iv k, Key := C.Key k s.block }) ∧
      s.block = (Open.derived C privateKey clientID pssh licenseResponse).2.1 := by
    rw [Open_eq] at h
    split at h
    · cases h
    · split at h
      · cases h
      · split at h
        · cases h
        · cases h
          exact ⟨rfl, rfl⟩
  refine ⟨hkeys.1, hkeys.2, ?_⟩
  intro k1 k2 hc h1 h2
  rw [hkeys.1, hc]
  simp [h1, h2]

/-- C12, for the stand-in collaborators on the response `[0, 7]`: one key,
that of the entry 7. -/
theorem Open_keys_toy :
    (Open toy [0x01] [] [0x09] [0x00, 0x07]).1 = some toySession ∧
      toySession.Keys = [{ ID := [0x07], IV := [0x07, 0x07], Key := [0x31] }] :=
  ⟨rfl, (Open_keys toy [0x01] [] [0x09] [0x00, 0x07] toySession rfl).2.2
    (0x00 : Byte) (0x07 : Byte) rfl rfl
    (by decide)⟩

/-- C13. The function `Open` fails exactly when one of the three collaborator
calls fails, tried in the order `New`, `Unmarshal`, `Block`: it then returns
the error of the first call that fails, unchanged, and no session; when the
three calls succeed it returns a session and no error, whatever the key
containers are. -/
theorem Open_fails_iff (C : Collaborators)
    (privateKey clientID pssh licenseResponse : List Byte) :
    (∀ err, (Open.initialised C privateKey clientID pssh).2 = some err →
      Open C privateKey clientID pssh licenseResponse = (none, some err)) ∧
    ((Open.initialised C privateKey clientID pssh).2 = none →
      ∀ err, (Open.decoded C licenseResponse).2 = some err →
      Open C privateKey clientID pssh licenseResponse = (none, some err)) ∧
    ((Open.initialised C privateKey clientID pssh).2 = none →
      (Open.decoded C licenseResponse).2 = none →
      ∀ err, (Open.derived C privateKey clientID pssh licenseResponse).2.2 = some err →
      Open C privateKey clientID pssh licenseResponse = (none, some err)) ∧
    ((Open.initialised C privateKey clientID pssh).2 = none →
      (Open.decoded C licenseResponse).2 = none →
      (Open.derived C privateKey clientID pssh licenseResponse).2.2 = none →
      (Open C privateKey clientID pssh licenseResponse).2 = none ∧
      ∃ s, (Open C privateKey clientID pssh licenseResponse).1 = some s) ∧
    ((Open C privateKey clientID pssh licenseResponse).2 ≠ none ↔
      (Open.initialised C privateKey clientID pssh).2 ≠ none ∨
      (Open.decoded C licenseResponse).2 ≠ none ∨
      (Open.derived C privateKey clientID pssh licenseResponse).2.2 ≠ none) ∧
    ((Open C privateKey clientID pssh licenseResponse).1 = none ↔
      (Open C privateKey clientID pssh licenseResponse).2 ≠ none) := by
  rw [Open_eq]
  unfold Open.derived Open.decoded Open.initialised
  cases h1 : (C.New C.zeroCdm privateKey clientID pssh).2 with
  | some e1 => simp
  | none =>
    cases h2 : (C.Unmarshal C.zeroResponseBody licenseResponse).2 with
    | some e2 => simp
    | none =>
      cases h3 : (C.Block (C.New C.zeroCdm privateKey clientID pssh).1
          (C.Unmarshal C.zeroResponseBody licenseResponse).1).2.2 with
      | some e3 => simp
      | none => simp

/-- C13, for the stand-in collaborators: an empty private key fails in `New`
even though the empty response would fail too; an empty response fails in
`Unmarshal`; a response of five bytes fails in `Block`; a response whose
entries all have an empty ID succeeds with no key. -/
theorem Open_fails_iff_toy :
    Open toy [] [] [0x09] [] = (none, some "no private key") ∧
      Open toy [0x01] [] [0x09] [] = (none, some "empty response") ∧
      Open toy [0x01] [] [0x09] [0x01, 0x02, 0x03, 0x04, 0x05]
        = (none, some "no session key") ∧
      (Open toy [0x01] [] [0x09] [0x00, 0x00]).2 = none :=
  ⟨(Open_fails_iff toy [] [] [0x09] []).1 "no private key" rfl,
    (Open_fails_iff toy [0x01] [] [0x09] []).2.1 rfl "empty response" rfl,
    (Open_fails_iff toy [0x01] [] [0x09] [0x01, 0x02, 0x03, 0x04, 0x05]).2.2.1 rfl rfl
      "no session key" rfl,
    ((Open_fails_iff toy [0x01] [] [0x09] [0x00, 0x00]).2.2.2.1 rfl rfl rfl).1⟩

/-- C14. The method `Close` is total and idempotent: on every session,
closing twice is closing once, and after `Close` the protocol state is the
zero value, there is no cipher and `Keys()` is empty. -/
theorem Session.Close_idempotent (C : Collaborators) (s : Session C) :
    s.Close.Close = s.Close ∧ s.Close.cdm = C.zeroCdm ∧ s.Close.block = none ∧
      s.Close.Keys = [] ∧ s.Close = Session.zero C ∧ (Session.zero C).Close = Session.zero C :=
  ⟨rfl, rfl, rfl, rfl, rfl, rfl⟩

theorem Session.call_keys {C : Collaborators} (s : Session C) (c : Call) :
    (s.call c).keys = if c = Call.Close then [] else s.keys := by
  cases c <;> rfl

theorem Session.run_keys {C : Collaborators} (s : Session C) (calls : List Call) :
    (s.run calls).keys = if Call.Close ∈ calls then [] else s.keys := by
  unfold Session.run
  induction calls generalizing s with
  | nil => simp
  | cons c rest ih =>
    rw [List.foldl_cons, ih, Session.call_keys]
    by_cases hr : Call.Close ∈ rest
    · simp [hr]
    · by_cases hc : c = Call.Close
      · simp [hc]
      · have hc2 : ¬ Call.Close = c := fun h => hc h.symm
        simp [hr, hc, hc2]

/-- C15. Session invariant: in every state reached from a successful `Open` by
calls of `Keys`, `RequestBody` and `Close`, every key of `Keys()` has a
non-empty ID and was built from a key container with that non-empty ID; and
once `Close` is among the calls made, `Keys()` is empty, whatever calls
follow. -/
theorem Session.keys_invariant (C : Collaborators)
    (privateKey clientID pssh licenseResponse : List Byte) (s : Session C)
    (h : (Open C privateKey clientID pssh licenseResponse).1 = some s) (calls : List Call) :
    (∀ key ∈ (s.run calls).Keys, key.ID ≠ [] ∧
      ∃ k ∈ C.Container (Open.decoded C licenseResponse).1, C.Id k ≠ [] ∧
        key = { ID := C.Id k, IV := C.iv k, Key := C.Key k s.block }) ∧
      (∀ before after, calls = before ++ Call.Close :: after → (s.run calls).Keys = []) := by
  have hkeys : s.keys = ((C.Container (Open.decoded C licenseResponse).1).filter
        (fun k => decide ((C.Id k).length ≠ 0))).map
        (fun k => { ID := C.Id k, IV := C.iv k, Key := C.Key k s.block }) := by
    rw [Open_eq] at h
    split at h
    · cases h
    · split at h
      · cases h
      · split at h
        · cases h
        · cases h
          rfl
  constructor
  · intro key hkey
    unfold Session.Keys at hkey
    rw [Session.run_keys] at hkey
    split_ifs at hkey
    · cases hkey
    · rw [hkeys, List.mem_map] at hkey
      obtain ⟨k, hk, rfl⟩ := hkey
      rw [List.mem_filter] at hk
      have hne : C.Id k ≠ [] := by
        intro h0
        have := hk.2
        rw [h0] at this
        simp at this
      exact ⟨hne, k, hk.1, hne, rfl⟩
  · intro before after hcalls
    unfold Session.Keys
    rw [Session.run_keys, if_pos (by rw [hcalls]; simp)]

/-- C15, for the stand-in collaborators: after `Open`, the calls `Keys`,
`RequestBody` leave the one key with its non-empty ID, and after `Close` the
calls `RequestBody`, `Keys` find no key. -/
theorem Session.keys_invariant_toy :
    (∀ key ∈ (toySession.run [Call.Keys, Call.RequestBody]).Keys, key.ID ≠ []) ∧
      (toySession.run [Call.Keys, Call.RequestBody]).Keys = toySession.Keys ∧
      (toySession.run [Call.Keys, Call.Close, Call.RequestBody, Call.Keys]).Keys = [] :=
  ⟨fun key hkey =>
      ((Session.keys_invariant toy [0x01] [] [0x09] [0x00, 0x07] toySession rfl
        [Call.Keys, Call.RequestBody]).1 key hkey).1,
    rfl,
    (Session.keys_invariant toy [0x01] [] [0x09] [0x00, 0x07] toySession rfl
      [Call.Keys, Call.Close, Call.RequestBody, Call.Keys]).2 [Call.Keys]
      [Call.RequestBody, Call.Keys] rfl⟩

/-! ## The parser for either width of `int` -/

theorem wrapIntN_64 (x : Int) : wrapIntN 64 x = wrapInt x := rfl

theorem wrapIntN_64_eq_self {x : Int} (hlo : -2 ^ 63 ≤ x) (hhi : x < 2 ^ 63) :
    wrapIntN 64 x = x :=
  wrapInt_eq_self hlo hhi

theorem Pssh.readPayloadN_64_eq (s : List Byte) (off : Nat) (hoff : off < 2 ^ 40) :
    Pssh.PsshBoxN.readPayload 64 s (off : Int) = Pssh.PsshBox.readPayload s (off : Int) := by
  rw [Pssh.readPayload_eq s off hoff]
  have hd := u32At_lt s off
  have w1 : wrapIntN 64 ((off : Int) + 4) = ((off + 4 : Nat) : Int) := by
    rw [wrapIntN_64_eq_self] <;> push_cast <;> omega
  have wc : wrapIntN 64 (u32At s off : Int) = (u32At s off : Int) :=
    wrapIntN_64_eq_self (by omega) (by omega)
  have w2 : wrapIntN 64 (((off + 4 : Nat) : Int) + (u32At s off : Int))
      = ((off + 4 + u32At s off : Nat) : Int) := by
    rw [wrapIntN_64_eq_self] <;> push_cast <;> omega
  unfold Pssh.PsshBoxN.readPayload
  rw [w1]
  by_cases h1 : s.length < off + 4
  · rw [if_pos (by unfold len; omega), if_pos h1]
    rfl
  · have hu := Uint32_bytesAt s off (by omega)
    rw [if_neg (by unfold len; omega), if_neg h1,
      slice_eq_bytesAt s off (off + 4) (by omega) (by omega),
      (by omega : off + 4 - off = 4)]
    show (Uint32 (bytesAt s off 4)).bind _ = _
    rw [hu, Option.some_bind, wc, w2]
    by_cases h2 : s.length < off + 4 + u32At s off
    · rw [if_pos (by unfold len; omega), if_pos h2]
      have w3 : wrapIntN 64 (len s - ((off + 4 : Nat) : Int))
          = (s.length : Int) - ((off : Int) + 4) := by
        unfold len
        rw [wrapIntN_64_eq_self] <;> push_cast <;> omega
      rw [w3]
      rfl
    · rw [if_neg (by unfold len; omega), if_neg h2,
        slice_eq_bytesAt s (off + 4) (off + 4 + u32At s off) (by omega) (by omega),
        (by omega : off + 4 + u32At s off - (off + 4) = u32At s off)]
      rfl

theorem Pssh.PsshBoxN_64_eq_parse_box (b : List Byte) :
    Pssh.PsshBoxN 64 b = some (parse_box b) := by
  unfold Pssh.PsshBoxN parse_box
  by_cases h0 : b.length < 32
  · rw [if_pos (by unfold len; omega), if_pos h0]
    rfl
  · have s48 : slice b 4 8 = some (bytesAt b 4 4) :=
      slice_eq_bytesAt b 4 8 (by omega) (by omega)
    have i8 : index b 8 = some (b.getD 8 0) := index_eq_getD b 8 (by omega)
    have s1228 : slice b 12 28 = some (bytesAt b 12 16) :=
      slice_eq_bytesAt b 12 28 (by omega) (by omega)
    have s2832 : slice b 28 32 = some (bytesAt b 28 4) :=
      slice_eq_bytesAt b 28 32 (by omega) (by omega)
    have hk := u32At_lt b 28
    rw [if_neg (by unfold len; omega), if_neg h0, s48, some_bind_eq]
    by_cases h1 : bytesAt b 4 4 ≠ psshTag
    · rw [if_pos h1, if_pos h1]
      rfl
    · rw [if_neg h1, if_neg h1, i8, some_bind_eq]
      by_cases h2 : b.getD 8 0 ≠ 0 ∧ b.getD 8 0 ≠ 1
      · rw [if_pos h2, if_pos h2]
        rfl
      · rw [if_neg h2, if_neg h2, s1228, some_bind_eq]
        by_cases h3 : bytesAt b 12 16 ≠ widevineSystemID
        · rw [if_pos h3, if_pos h3]
          rfl
        · rw [if_neg h3, if_neg h3]
          by_cases h4 : b.getD 8 0 = 1
          · rw [if_pos h4, if_neg (by unfold len; omega), s2832, some_bind_eq,
              Uint32_bytesAt b 28 (by omega), some_bind_eq]
            have wc : wrapIntN 64 (u32At b 28 : Int) = (u32At b 28 : Int) :=
              wrapIntN_64_eq_self (by omega) (by omega)
            have w0 : wrapIntN 64 (32 + wrapIntN 64 ((u32At b 28 : Int) * 16))
                = ((32 + 16 * u32At b 28 : Nat) : Int) := by
              rw [wrapIntN_64_eq_self (x := (u32At b 28 : Int) * 16) (by omega) (by omega),
                wrapIntN_64_eq_self (by omega) (by omega)]
              push_cast
              ring
            have w1 : wrapIntN 64 (((32 + 16 * u32At b 28 : Nat) : Int) + 4)
                = ((32 + 16 * u32At b 28 + 4 : Nat) : Int) := by
              rw [wrapIntN_64_eq_self] <;> push_cast <;> omega
            have hoff : dataSizeOffsetOf b = 32 + 16 * u32At b 28 := by
              unfold dataSizeOffsetOf
              rw [if_pos h4]
            rw [wc, w0]
            show (if len b < wrapIntN 64 (((32 + 16 * u32At b 28 : Nat) : Int) + 4) then _ else _) = _
            rw [w1, hoff]
            by_cases h5 : b.length < 32 + 16 * u32At b 28 + 4
            · rw [if_pos (by unfold len; omega), if_pos ⟨h4, h5⟩]
              rfl
            · rw [if_neg (by unfold len; omega), if_neg (fun h => h5 h.2),
                Pssh.readPayloadN_64_eq b (32 + 16 * u32At b 28) (by omega),
                Pssh.readPayload_eq b (32 + 16 * u32At b 28) (by omega)]
          · have hoff : dataSizeOffsetOf b = 28 := by
              unfold dataSizeOffsetOf
              rw [if_neg h4]
            rw [if_neg h4, if_neg (fun h => h4 h.1), hoff]
            exact (Pssh.readPayloadN_64_eq b 28 (by omega)).trans
              (Pssh.readPayload_eq b 28 (by omega))

/-- The parser for a target whose `int` is 64 bits wide is `Pssh.PsshBox`. -/
theorem Pssh.PsshBoxN_64 (b : List Byte) : Pssh.PsshBoxN 64 b = Pssh.PsshBox b := by
  rw [Pssh.PsshBoxN_64_eq_parse_box, Pssh.PsshBox_eq_parse_box]

/-- C3. On a target whose `int` is 32 bits wide the key-ID check of lines
31-34 is evaded. The box `box44Wrap` has a valid version-1 header and a key
count `0x10000000`, so its key IDs do not fit (`32 + 16 * keyCount + 4` is
far more than its 44 bytes); but `int(keyCount)*16` wraps to 0, the offset is
32, and the parser returns the four bytes at `[36, 40)` as payload instead of
the key-ID error. On a 64-bit target the same box gives the key-ID error. -/
theorem Pssh.PsshBoxN_keyCount_wraps :
    box44Wrap.length = 44 ∧ bytesAt box44Wrap 4 4 = psshTag ∧ box44Wrap[8]? = some 1 ∧
      bytesAt box44Wrap 12 16 = widevineSystemID ∧ u32At box44Wrap 28 = 268435456 ∧
      32 + 16 * u32At box44Wrap 28 + 4 > box44Wrap.length ∧
      wrapIntN 32 (32 + wrapIntN 32 (wrapIntN 32 (268435456 : Int) * 16)) = 32 ∧
      Pssh.PsshBoxN 32 box44Wrap = some (.ok [0xAA, 0xBB, 0xCC, 0xDD]) ∧
      Pssh.PsshBoxN 64 box44Wrap = some (.error .truncatedAfterKeyIDs) :=
  ⟨by decide, by decide, by decide, by decide, by decide, by decide, by decide, by decide,
    (Pssh.PsshBoxN_64 box44Wrap).trans
      (Pssh.PsshBox_version1_truncatedAfterKeyIDs box44Wrap (by decide) (by decide) (by decide)
        (by decide) (by decide)).1⟩

/-- C5. On a target whose `int` is 32 bits wide a declared payload length
that exceeds the rest of the buffer does not always give the payload error.
The box `box44Huge` has a valid version-0 header, a readable length field at
offset 28 and `dataSize = 0xFFFFFFFF`, far more than the 12 bytes left; but
`int(dataSize)` is -1, the check of line 40 compares 44 with 31 and passes,
and the slice `pssh[32:31]` of line 43 panics. On a 64-bit target the same
box gives the payload error with 4294967295 and 12. -/
theorem Pssh.PsshBoxN_dataSize_wraps :
    box44Huge.length = 44 ∧ bytesAt box44Huge 4 4 = psshTag ∧ box44Huge[8]? = some 0 ∧
      bytesAt box44Huge 12 16 = widevineSystemID ∧ dataSizeOffsetOf box44Huge = 28 ∧
      u32At box44Huge 28 = 4294967295 ∧
      u32At box44Huge 28 > box44Huge.length - (dataSizeOffsetOf box44Huge + 4) ∧
      wrapIntN 32 (4294967295 : Int) = -1 ∧
      wrapIntN 32 (wrapIntN 32 (28 + 4) + wrapIntN 32 (4294967295 : Int)) = 31 ∧
      Pssh.PsshBoxN 32 box44Huge = none ∧
      Pssh.PsshBoxN 64 box44Huge = some (.error (.truncatedPayload 4294967295 12)) :=
  ⟨by decide, by decide, by decide, by decide, by decide, by decide, by decide, by decide,
    by decide, by decide, by decide⟩

/-- C8. On a target whose `int` is 32 bits wide the error is not always that
of the first failing check. The box `box44Keys` has a valid version-1 header
and a key count `0xFFFFFFFF`: the key-ID check is the first that fails. But
`32 + int(keyCount)*16` is 16, that check passes, the payload length is read
from the system ID at `[16, 20)`, and the parser returns the payload error
with 2044086990 and 24. On a 64-bit target it returns the key-ID error. -/
theorem Pssh.PsshBoxN_order_broken :
    box44Keys.length = 44 ∧ bytesAt box44Keys 4 4 = psshTag ∧ box44Keys[8]? = some 1 ∧
      bytesAt box44Keys 12 16 = widevineSystemID ∧ u32At box44Keys 28 = 4294967295 ∧
      box44Keys.length < 32 + 16 * u32At box44Keys 28 + 4 ∧
      wrapIntN 32 (32 + wrapIntN 32 (wrapIntN 32 (4294967295 : Int) * 16)) = 16 ∧
      u32At box44Keys 16 = 2044086990 ∧
      Pssh.PsshBoxN 32 box44Keys = some (.error (.truncatedPayload 2044086990 24)) ∧
      Pssh.PsshBoxN 64 box44Keys = some (.error .truncatedAfterKeyIDs) :=
  ⟨by decide, by decide, by decide, by decide, by decide, by decide, by decide, by decide,
    by decide,
    (Pssh.PsshBoxN_64 box44Keys).trans
      (Pssh.PsshBox_version1_truncatedAfterKeyIDs box44Keys (by decide) (by decide) (by decide)
        (by decide) (by decide)).1⟩

/-- C9. On a target whose `int` is 32 bits wide `PsshBox` panics on two
44-byte buffers. On `box44Huge` the slice of line 43 is `pssh[32:31]`, its
low bound above its high bound. On `box44Neg`, whose key count `0xFFFFFFFD`
is -3 as an `int`, the offset is -16 and the slice of line 39 is
`pssh[-16:-12]`. Both slices are out of range whatever the capacity of the
buffer. On a 64-bit target neither buffer panics. -/
theorem Pssh.PsshBoxN_panics :
    slice box44Huge 32 31 = none ∧ Pssh.PsshBoxN 32 box44Huge = none ∧
      wrapIntN 32 (32 + wrapIntN 32 (wrapIntN 32 (4294967293 : Int) * 16)) = -16 ∧
      slice box44Neg (-16) (-12) = none ∧ Pssh.PsshBoxN 32 box44Neg = none ∧
      Pssh.PsshBoxN 64 box44Huge ≠ none ∧ Pssh.PsshBoxN 64 box44Neg ≠ none :=
  ⟨by decide, by decide, by decide, by decide, by decide,
    by rw [Pssh.PsshBoxN_64_eq_parse_box]; exact Option.some_ne_none _,
    by rw [Pssh.PsshBoxN_64_eq_parse_box]; exact Option.some_ne_none _⟩

end Widevine
